import Mathlib

/-!
Verification of the citation-processing core of the Incipit Genie repository
(`document_processor.py`, `unified_router.py`, `app.py`, `claude_router.py`).

The Python sources are shallowly embedded: pure helper functions become Lean
functions on `List Char` / `String`, the mutable `CitationHistory` object
becomes explicit state passing, the regex `IBID_PATTERN` becomes a
specialized backtracking matcher that follows Python `re` semantics
(alternation order, greedy and lazy quantifiers, single capture group), and
the external collaborators (citation providers, formatters, detectors) become
explicit oracle parameters, as the spec treats them as black boxes.
-/

namespace CiteFlex

/-- ASCII whitespace characters recognized by Python `str.strip` and `\s`
(space, tab, newline, carriage return, vertical tab, form feed); the embedding
models ASCII text. -/
def pyWhitespace (c : Char) : Bool :=
  c == ' ' || c == '\t' || c == '\n' || c == '\r' ||
  c == Char.ofNat 11 || c == Char.ofNat 12

/-- Python `str.strip()` on a character list. -/
def pyStrip (l : List Char) : List Char :=
  ((l.dropWhile pyWhitespace).reverse.dropWhile pyWhitespace).reverse

/-- Python `str.strip()` on a string. -/
def pyStripS (s : String) : String :=
  String.mk (pyStrip s.data)

/-- Python `str.lower()` (ASCII). -/
def pyLower (s : String) : String :=
  String.mk (s.data.map Char.toLower)

/-- Decimal digit test, Python `\d` restricted to ASCII (code points 48-57). -/
def isDigitCh (c : Char) : Bool :=
  decide (48 ≤ c.toNat ∧ c.toNat ≤ 57)

/-- The two dash characters accepted by the page-range group of
`IBID_PATTERN` (`[\-–]`): ASCII hyphen and the en dash. -/
def isIbidDash (c : Char) : Bool :=
  c == '-' || c == '–'

/-! ### A specialized backtracking matcher for `IBID_PATTERN`

`document_processor.py` lines 42-45:

  IBID_PATTERN = re.compile(
      r'^(?:ibid\.?|ibidem\.?|id\.?)(?:\s*(?:at\s+|[,.]?\s*)?(?:pp?\.?\s*)?(\d+[\-–]?\d*)?)?\.?$',
      re.IGNORECASE)

Each regex component is embedded as a function from an input suffix to the
list of possible remainder suffixes, ordered by Python `re` backtracking
preference (greedy quantifiers try the longest consumption first, alternation
tries branches left to right, `X?` tries `X` before the empty match).  The
overall match result is the first complete path. -/

/-- Case-insensitive literal match (`re.IGNORECASE`): consumes the literal
(given lower-case) and returns the remainder, or fails. -/
def matchLit : List Char → List Char → Option (List Char)
  | [], cs => some cs
  | _, [] => none
  | l :: ls, c :: cs => if c.toLower = l then matchLit ls cs else none

/-- Candidates for a literal: zero or one remainder. -/
def litCands (l : List Char) (cs : List Char) : List (List Char) :=
  (matchLit l cs).toList

/-- Candidates for a greedy star `p*`: remainders from longest consumption to
shortest (Python greedy backtracking order). -/
def starCands (p : Char → Bool) : List Char → List (List Char)
  | [] => [[]]
  | c :: cs => if p c then starCands p cs ++ [c :: cs] else [c :: cs]

/-- Candidates for a greedy plus `p+`: at least one character. -/
def plusCands (p : Char → Bool) : List Char → List (List Char)
  | [] => []
  | c :: cs => if p c then starCands p cs else []

/-- Candidates for a greedy optional single character `[..]?`: consume one
matching character if possible, then the skip. -/
def charOptCands (p : Char → Bool) : List Char → List (List Char)
  | c :: t => (if p c then [t] else []) ++ [c :: t]
  | [] => [[]]

/-- Candidates for `\.?` (greedy optional literal dot). -/
def dotOptCands (cs : List Char) : List (List Char) :=
  charOptCands (fun c => c.toLower == '.') cs

/-- Sequencing of candidate producers in backtracking order. -/
def seqCands (f g : List Char → List (List Char)) (cs : List Char) :
    List (List Char) :=
  (f cs).flatMap g

/-- The prefix alternation `(?:ibid\.?|ibidem\.?|id\.?)`. -/
def ibidPrefCands (cs : List Char) : List (List Char) :=
  seqCands (litCands "ibid".data) dotOptCands cs ++
  seqCands (litCands "ibidem".data) dotOptCands cs ++
  seqCands (litCands "id".data) dotOptCands cs

/-- The separator `(?:at\s+|[,.]?\s*)?`. -/
def sepOptCands (cs : List Char) : List (List Char) :=
  seqCands (litCands "at".data) (plusCands pyWhitespace) cs ++
  seqCands (charOptCands (fun c => c == ',' || c == '.'))
    (starCands pyWhitespace) cs ++
  [cs]

/-- The page-word `(?:pp?\.?\s*)?`. -/
def ppOptCands (cs : List Char) : List (List Char) :=
  seqCands
    (seqCands
      (seqCands (litCands "p".data)
        (fun r => litCands "p".data r ++ [r]))
      dotOptCands)
    (starCands pyWhitespace) cs ++
  [cs]

/-- Remainder candidates for the page group `\d+[\-–]?\d*` (no capture yet). -/
def numCandsRem (cs : List Char) : List (List Char) :=
  seqCands (seqCands (plusCands isDigitCh) (charOptCands isIbidDash))
    (starCands isDigitCh) cs

/-- The consumed part of input `cs` given remainder suffix `r`. -/
def consumedOf (cs r : List Char) : List Char :=
  cs.take (cs.length - r.length)

/-- Candidates for the optional captured page group `(\d+[\-–]?\d*)?`:
pairs of remainder and captured text (`none` when the group is skipped). -/
def numOptCands (cs : List Char) : List (List Char × Option (List Char)) :=
  (numCandsRem cs).map (fun r => (r, some (consumedOf cs r))) ++ [(cs, none)]

/-- The whole optional tail group
`(?:\s*(?:at\s+|[,.]?\s*)?(?:pp?\.?\s*)?(\d+[\-–]?\d*)?)?`. -/
def midCands (cs : List Char) : List (List Char × Option (List Char)) :=
  (starCands pyWhitespace cs).flatMap (fun r1 =>
    (sepOptCands r1).flatMap (fun r2 =>
      (ppOptCands r2).flatMap (fun r3 => numOptCands r3))) ++
  [(cs, none)]

/-- All complete-match outcomes of `IBID_PATTERN` against `cs`, in
backtracking preference order; each element is the capture of group 1 for one
complete parse.  `\.?$` closes the pattern. -/
def ibidFullCands (cs : List Char) : List (Option (List Char)) :=
  (ibidPrefCands cs).flatMap (fun r1 =>
    (midCands r1).flatMap (fun rc =>
      (dotOptCands rc.1).filterMap (fun r3 =>
        if r3 = [] then some rc.2 else none)))

/-- `IBID_PATTERN.match(cs)`: `none` when there is no match, otherwise
`some g` where `g` is `match.group(1)` of the preferred parse. -/
def ibidMatchRe (cs : List Char) : Option (Option (List Char)) :=
  (ibidFullCands cs).head?

/-- `is_ibid` from `document_processor.py` lines 48-72: empty text is
rejected, otherwise the stripped text is matched against `IBID_PATTERN`. -/
def is_ibid (text : String) : Bool :=
  if text = "" then false
  else (ibidMatchRe (pyStrip text.data)).isSome

/-- `extract_ibid_page` from `document_processor.py` lines 75-104: on a match
with a truthy group 1, return the stripped group text, else `None`. -/
def extract_ibid_page (text : String) : Option String :=
  if text = "" then none
  else
    match ibidMatchRe (pyStrip text.data) with
    | some (some cap) =>
        if cap = [] then none else some (String.mk (pyStrip cap))
    | some none => none
    | none => none

/-! ### URL normalization (`document_processor.py` lines 107-158) -/

/-- Python truthiness of an optional string attribute: `None` and the empty
string are falsy. -/
def pyTruthy (o : Option String) : Bool :=
  o.getD "" ≠ ""

/-- Drop trailing characters satisfying `p` (Python `str.rstrip`). -/
def rstripP (p : Char → Bool) (l : List Char) : List Char :=
  (l.reverse.dropWhile p).reverse

/-- `normalize_url`: strip and lower-case, drop trailing slashes, drop the
query string (everything from the first `?` on). -/
def normalize_url (url : Option String) : String :=
  match url with
  | none => ""
  | some u =>
      if u = "" then ""
      else
        let n1 := (pyStrip u.data).map Char.toLower
        let n2 := rstripP (fun c => c == '/') n1
        let n3 := if n2.contains '?' then n2.takeWhile (fun c => c ≠ '?') else n2
        String.mk n3

/-- `urls_match`: both URLs truthy and equal after normalization. -/
def urls_match (url1 url2 : Option String) : Bool :=
  if ¬ pyTruthy url1 ∨ ¬ pyTruthy url2 then false
  else normalize_url url1 == normalize_url url2

/-! ### Citation metadata and the source identity key -/

/-- Coarse citation types from `models.CitationType` (declarations visible in
`unified_router.py` and `claude_router.py`). -/
inductive CitationType where
  | legal | book | journal | newspaper | government
  | medical | interview | url | unknown
  deriving DecidableEq, Repr

/-- The resolved-metadata record.  `models.py` is outside the provided
sources; the fields are exactly those the provided sources read or build
(`generate_source_key`, the wrapper constructors in `unified_router.py`).
Optional string fields model attributes that may be `None` or empty. -/
structure CitationMetadata where
  citation_type : CitationType := CitationType.unknown
  raw_source : String := ""
  source_engine : String := ""
  title : Option String := none
  authors : List String := []
  year : Option String := none
  publisher : Option String := none
  place : Option String := none
  isbn : Option String := none
  doi : Option String := none
  url : Option String := none
  case_name : Option String := none
  citation : Option String := none
  court : Option String := none
  jurisdiction : Option String := none
  neutral_citation : Option String := none
  deriving DecidableEq, Repr

/-- Modelled from the spec: `normalize_doi` lives in `models.py`, which is
outside the provided sources.  Per spec section 4.1 a DOI is normalized by
case folding and stripping whitespace and resolver prefixes; an empty result
is falsy. -/
def normalize_doi (d : String) : Option String :=
  let t := (pyStrip d.data).map Char.toLower
  let t := if "https://doi.org/".data.isPrefixOf t then t.drop 16 else t
  let t := if "http://doi.org/".data.isPrefixOf t then t.drop 15 else t
  let t := if "doi:".data.isPrefixOf t then t.drop 4 else t
  if t = [] then none else some (String.mk t)

/-- `generate_source_key` (`document_processor.py` lines 165-218) on a
non-`None` metadata record: DOI, then URL, then legal case name plus
citation, then title (optionally with first author), then bare case name. -/
def genKeyM (m : CitationMetadata) : Option String :=
  if pyTruthy m.doi then
    match normalize_doi (m.doi.getD "") with
    | some n => some ("doi:" ++ n)
    | none => genKeyTail m
  else genKeyTail m
where
  /-- The fall-through after the DOI branch. -/
  genKeyTail (m : CitationMetadata) : Option String :=
    if pyTruthy m.url then
      some ("url:" ++ normalize_url m.url)
    else if pyTruthy m.case_name ∧ pyTruthy m.citation then
      some ("legal:" ++ pyLower (pyStripS (m.case_name.getD "")) ++ "|" ++
        pyLower (pyStripS (m.citation.getD "")))
    else if pyTruthy m.title then
      some ("title:" ++ pyLower (pyStripS (m.title.getD "")) ++
        (match m.authors with
         | [] => ""
         | a :: _ => "|author:" ++ pyLower (pyStripS a)))
    else if pyTruthy m.case_name then
      some ("case:" ++ pyLower (pyStripS (m.case_name.getD "")))
    else none

/-- `generate_source_key` including the `if not metadata: return None`
guard. -/
def generate_source_key (m : Option CitationMetadata) : Option String :=
  match m with
  | none => none
  | some md => genKeyM md

/-- `sources_match` (`document_processor.py` lines 221-238): equality of the
two generated keys, false when either key is `None`. -/
def sources_match (m1 m2 : Option CitationMetadata) : Bool :=
  match generate_source_key m1, generate_source_key m2 with
  | some k1, some k2 => k1 == k2
  | _, _ => false

/-! ### Citation history (`document_processor.py` lines 241-342) -/

/-- Result of processing a single citation (`ProcessedCitation`). -/
structure ProcessedCitation where
  original : String
  formatted : String
  metadata : Option CitationMetadata
  url : Option String
  success : Bool
  error : Option String := none
  citation_form : String := "full"
  deriving DecidableEq, Repr, Inhabited

/-- Entry in the citation history (`CitationHistoryEntry`). -/
structure CitationHistoryEntry where
  metadata : CitationMetadata
  formatted : String
  source_key : Option String
  note_number : Nat
  deriving DecidableEq, Repr

/-- The per-document history: previous entry, first-occurrence map from
source key to entry (embedded as an association list, insertion at the end,
first write wins), and the note counter. -/
structure CitationHistory where
  previous : Option CitationHistoryEntry
  all_sources : List (String × CitationHistoryEntry)
  note_counter : Nat
  deriving DecidableEq, Repr

/-- The freshly constructed history (`CitationHistory.__init__`). -/
def CitationHistory.emptyH : CitationHistory :=
  ⟨none, [], 0⟩

/-- Key membership in the `all_sources` map. -/
def hasSourceKey (l : List (String × CitationHistoryEntry)) (k : String) :
    Bool :=
  l.any (fun p => p.1 == k)

/-- `CitationHistory.add` (lines 276-299): bump the counter, build the entry,
always update `previous`, and record the entry in `all_sources` only when its
key is non-null and fresh. -/
def CitationHistory.add (h : CitationHistory) (metadata : CitationMetadata)
    (formatted : String) : CitationHistory :=
  let counter := h.note_counter + 1
  let source_key := generate_source_key (some metadata)
  let entry : CitationHistoryEntry := ⟨metadata, formatted, source_key, counter⟩
  let sources :=
    match source_key with
    | some k =>
        if hasSourceKey h.all_sources k then h.all_sources
        else h.all_sources ++ [(k, entry)]
    | none => h.all_sources
  ⟨some entry, sources, counter⟩

/-- `CitationHistory.is_same_as_previous` (lines 301-314). -/
def CitationHistory.is_same_as_previous (h : CitationHistory)
    (metadata : CitationMetadata) : Bool :=
  match h.previous with
  | none => false
  | some prev => sources_match (some metadata) (some prev.metadata)

/-- `CitationHistory.has_been_cited_before` (lines 316-330). -/
def CitationHistory.has_been_cited_before (h : CitationHistory)
    (metadata : CitationMetadata) : Bool :=
  match generate_source_key (some metadata) with
  | none => false
  | some k => hasSourceKey h.all_sources k

/-- `CitationHistory.get_previous_metadata` (lines 332-336). -/
def CitationHistory.get_previous_metadata (h : CitationHistory) :
    Option CitationMetadata :=
  h.previous.map (fun e => e.metadata)

/-- `CitationHistory.get_previous_url` (lines 338-342). -/
def CitationHistory.get_previous_url (h : CitationHistory) : Option String :=
  match h.previous with
  | some prev => prev.metadata.url
  | none => none

/-! ### The per-note citation form decider
(`process_single_note`, `document_processor.py` lines 932-1075)

The XML write-backs (`write_endnote` / `write_footnote`) return booleans that
`process_single_note` discards, and the returned `ProcessedCitation` and the
history never depend on them, so the document tree is not part of this state.
The external collaborators — `get_citation` behind the timeout wrapper
(lines 919-930, which absorbs timeouts and exceptions into `(None, None)`),
and the style formatter — are oracle parameters. -/

/-- A note extracted from the document: identifier and raw text. -/
structure Note where
  id : String
  text : String
  deriving DecidableEq, Repr

/-- Oracle environment for note processing: `resolve` is
`get_citation_with_timeout` (returning metadata and the full-form formatted
string, or nothing), `format_short` is `formatter.format_short`, and
`format_ibid` is `BaseFormatter.format_ibid` with its optional page. -/
structure NoteEnv where
  resolve : String → Option CitationMetadata × Option String
  format_short : CitationMetadata → String
  format_ibid : Option String → String

/-- `process_single_note`: explicit ibid, then URL-repeat ibid, then
same-as-previous ibid, then short form, then full citation; failures return
an unsuccessful record carrying the original text.  Returns the produced
`ProcessedCitation` and the updated history. -/
def process_single_note (env : NoteEnv) (history : CitationHistory)
    (note : Note) : ProcessedCitation × CitationHistory :=
  let original_text := note.text
  if is_ibid original_text then
    match history.get_previous_metadata with
    | none =>
        (⟨original_text, original_text, none, none, false,
          some "ibid reference but no previous citation found", "ibid"⟩,
         history)
    | some previous_metadata =>
        (⟨original_text, env.format_ibid (extract_ibid_page original_text),
          some previous_metadata, history.get_previous_url, true, none,
          "ibid"⟩,
         history)
  else
    match (env.resolve original_text).1, (env.resolve original_text).2 with
    | some metadata, some full_formatted =>
        if full_formatted = "" then
          (⟨original_text, original_text, none, none, false,
            some "No metadata found", "full"⟩, history)
        else
          let current_url :=
            if ¬ pyTruthy metadata.url ∧
                "http".data.isPrefixOf (pyStrip original_text.data) then
              some (pyStripS original_text)
            else metadata.url
          let previous_url := history.get_previous_url
          if pyTruthy current_url ∧ pyTruthy previous_url ∧
              urls_match current_url previous_url then
            (⟨original_text, env.format_ibid none,
              history.get_previous_metadata, current_url, true, none,
              "ibid"⟩, history)
          else if history.is_same_as_previous metadata then
            (⟨original_text, env.format_ibid none, some metadata, current_url,
              true, none, "ibid"⟩, history)
          else if history.has_been_cited_before metadata then
            let formatted := env.format_short metadata
            (⟨original_text, formatted, some metadata, current_url, true,
              none, "short"⟩,
             history.add metadata formatted)
          else
            (⟨original_text, full_formatted, some metadata, current_url, true,
              none, "full"⟩,
             history.add metadata full_formatted)
    | _, _ =>
        (⟨original_text, original_text, none, none, false,
          some "No metadata found", "full"⟩, history)

/-- The note loop of `process_document` (lines 1081-1092): one
`ProcessedCitation` per note, in order, threading the history. -/
def processNotes (env : NoteEnv) :
    List Note → CitationHistory → List ProcessedCitation × CitationHistory
  | [], h => ([], h)
  | n :: ns, h =>
      let p := process_single_note env h n
      let rest := processNotes env ns p.2
      (p.1 :: rest.1, rest.2)

/-- `process_document` restricted to its observable citation results: runs
the note loop from a fresh history (line 906). -/
def process_document (env : NoteEnv) (notes : List Note) :
    List ProcessedCitation × CitationHistory :=
  processNotes env notes CitationHistory.emptyH

/-! ### The unified router (`unified_router.py`)

Provider clients (superlegal, books, the four academic engines, the
extractors, the AI classifier) are oracle parameters; a wrapped provider call
returns `Except Unit _` where `Except.error ()` stands for a raised exception
that the enclosing `try/except` absorbs.  The four pooled engine calls of
`_route_journal` additionally have a `hangs` observation: the engines whose
futures do not complete within the 12-second `PARALLEL_TIMEOUT`; when that
set is non-empty, `as_completed` raises `concurrent.futures.TimeoutError`
outside any `try` block (lines 266-274), which the embedding surfaces as
`Except.error PyExc.futuresTimeout`.  Every provider call site also appends
its name to a trace list, so that theorems can speak about which providers an
invocation reached. -/

/-- The one exception `unified_router.py` can let escape in this model. -/
inductive PyExc where
  | futuresTimeout
  deriving DecidableEq, Repr

/-- Dict produced by `superlegal.extract_metadata` (fields read by
`_legal_dict_to_metadata`). -/
structure LegalData where
  case_name : Option String := none
  citation : Option String := none
  court : Option String := none
  year : Option String := none
  jurisdiction : Option String := none
  neutral_citation : Option String := none
  url : Option String := none
  source_engine : Option String := none
  deriving DecidableEq, Repr

/-- Dict produced by `books.extract_metadata` (fields read by
`_book_dict_to_metadata`). -/
structure BookData where
  title : Option String := none
  authors : List String := []
  year : Option String := none
  publisher : Option String := none
  place : Option String := none
  isbn : Option String := none
  source_engine : Option String := none
  deriving DecidableEq, Repr

/-- Entry of the famous-papers cache (`engines/famous_papers.py`, outside the
provided sources): carries a DOI plus the metadata fields that
`CitationMetadata(..., **famous)` splices in. -/
structure FamousPaper where
  doi : String
  title : Option String := none
  authors : List String := []
  year : Option String := none
  deriving DecidableEq, Repr

/-- `_legal_dict_to_metadata` (`unified_router.py` lines 128-145). -/
def legal_dict_to_metadata (data : LegalData) (raw_source : String) :
    CitationMetadata :=
  { citation_type := CitationType.legal
    raw_source := raw_source
    source_engine := data.source_engine.getD "Legal Cache/CourtListener"
    case_name := some (data.case_name.getD "")
    citation := some (data.citation.getD "")
    court := some (data.court.getD "")
    year := some (data.year.getD "")
    jurisdiction := some (data.jurisdiction.getD "US")
    neutral_citation := some (data.neutral_citation.getD "")
    url := some (data.url.getD "") }

/-- `_book_dict_to_metadata` (`unified_router.py` lines 152-168). -/
def book_dict_to_metadata (data : BookData) (raw_source : String) :
    CitationMetadata :=
  { citation_type := CitationType.book
    raw_source := raw_source
    source_engine := data.source_engine.getD "Google Books/Open Library"
    title := some (data.title.getD "")
    authors := data.authors
    year := some (data.year.getD "")
    publisher := some (data.publisher.getD "")
    place := some (data.place.getD "")
    isbn := some (data.isbn.getD "") }

/-- `CitationMetadata(citation_type=JOURNAL, raw_source=query,
source_engine="Famous Papers Cache", **famous)` (lines 398-404). -/
def famous_to_metadata (query : String) (fp : FamousPaper) :
    CitationMetadata :=
  { citation_type := CitationType.journal
    raw_source := query
    source_engine := "Famous Papers Cache"
    title := fp.title
    authors := fp.authors
    year := fp.year
    doi := some fp.doi }

/-- Modelled from the spec: `has_minimum_data` is a method of
`CitationMetadata` in `models.py`, which is outside the provided sources.
Spec sections 3 and 4.4: a per-type completeness bar — legal records need a
case name or a citation, every other type needs a title. -/
def CitationMetadata.has_minimum_data (m : CitationMetadata) : Bool :=
  match m.citation_type with
  | CitationType.legal => pyTruthy m.case_name || pyTruthy m.citation
  | _ => pyTruthy m.title

/-- `MEDICAL_DOMAINS` (`unified_router.py` line 111). -/
def MEDICAL_DOMAINS : List String :=
  ["pubmed", "ncbi.nlm.nih.gov", "nih.gov/health", "medlineplus"]

/-- Contiguous-substring test (Python `in` on strings). -/
def isSubstrOf (pat : List Char) : List Char → Bool
  | [] => pat.isPrefixOf []
  | c :: cs => pat.isPrefixOf (c :: cs) || isSubstrOf pat cs

/-- `_is_medical_url` (lines 290-293): case-folded substring test against
`MEDICAL_DOMAINS`. -/
def is_medical_url (url : String) : Bool :=
  MEDICAL_DOMAINS.any
    (fun d => isSubstrOf d.data (url.data.map Char.toLower))

/-- Character class `[^\s]` of the in-query DOI pattern (line 244). -/
def doiTailChar (c : Char) : Bool :=
  ¬ pyWhitespace c

/-- Character class `[^\s?#]` of the in-URL DOI pattern (line 320). -/
def doiTailCharUrl (c : Char) : Bool :=
  ¬ pyWhitespace c ∧ c ≠ '?' ∧ c ≠ '#'

/-- Match `10\.\d{4,}/T+` (with `T` the given tail class) at the start of
`cs`, returning the matched text.  The digit run and the tail run are
maximal; shorter digit runs cannot rescue a failed match because `/` is not
a digit. -/
def matchDoiAt (tailChar : Char → Bool) (cs : List Char) :
    Option (List Char) :=
  match cs with
  | '1' :: '0' :: '.' :: rest =>
      let ds := rest.takeWhile isDigitCh
      if ds.length < 4 then none
      else
        match rest.drop ds.length with
        | '/' :: rest2 =>
            let tl := rest2.takeWhile tailChar
            if tl = [] then none
            else some ('1' :: '0' :: '.' :: (ds ++ '/' :: tl))
        | _ => none
  | _ => none

/-- `re.search` for the DOI pattern: leftmost match. -/
def reSearchDoi (tailChar : Char → Bool) : List Char → Option (List Char)
  | [] => none
  | c :: cs =>
      match matchDoiAt tailChar (c :: cs) with
      | some m => some m
      | none => reSearchDoi tailChar cs

/-- `.rstrip('.,;')` applied to an extracted DOI. -/
def rstripDoi (l : List Char) : String :=
  String.mk (rstripP (fun c => c == '.' || c == ',' || c == ';') l)

/-- Oracle environment for the router.  `hangs` lists the pooled engines
(0 = Crossref, 1 = OpenAlex, 2 = Semantic Scholar, 3 = PubMed) whose futures
outlast `PARALLEL_TIMEOUT`; `completion_order` is the order in which the
remaining futures complete (a faithful instantiation passes each non-hanging
index exactly once). -/
structure RouterEnv where
  is_legal_citation : String → Bool
  is_url : String → Bool
  detect_type : String → CitationType
  fmt : String → CitationMetadata → String
  superlegal_extract : String → Except Unit (Option LegalData)
  books_extract : String → Except Unit (List BookData)
  find_famous_paper : String → Option FamousPaper
  crossref_get_by_id : String → Except Unit (Option CitationMetadata)
  crossref_search : String → Except Unit (Option CitationMetadata)
  openalex_search : String → Except Unit (Option CitationMetadata)
  semantic_search : String → Except Unit (Option CitationMetadata)
  pubmed_search : String → Except Unit (Option CitationMetadata)
  hangs : String → List (Fin 4)
  completion_order : String → List (Fin 4)
  extract_doi_from_url : String → Option String
  is_academic_publisher_url : String → Bool
  extract_by_type : String → CitationType → Option CitationMetadata
  ai_available : Bool
  classify_with_ai : String → CitationType × Option CitationMetadata

/-- The pooled engine call of index `i` (lines 259-264). -/
def RouterEnv.engineSearch (env : RouterEnv) (i : Fin 4) (query : String) :
    Except Unit (Option CitationMetadata) :=
  match i with
  | 0 => env.crossref_search query
  | 1 => env.openalex_search query
  | 2 => env.semantic_search query
  | 3 => env.pubmed_search query

/-- The engine name assigned into `source_engine` (lines 259-264). -/
def engineName (i : Fin 4) : String :=
  match i with
  | 0 => "Crossref"
  | 1 => "OpenAlex"
  | 2 => "Semantic Scholar"
  | 3 => "PubMed"

/-- `_route_legal` (lines 175-192): wrapped call, result kept only when the
dict carries a case name or a citation. -/
def route_legal (env : RouterEnv) (query : String) :
    Option CitationMetadata × List String :=
  match env.superlegal_extract query with
  | Except.error _ => (none, ["superlegal.extract_metadata"])
  | Except.ok none => (none, ["superlegal.extract_metadata"])
  | Except.ok (some data) =>
      if pyTruthy data.case_name ∨ pyTruthy data.citation then
        (some (legal_dict_to_metadata data query),
         ["superlegal.extract_metadata"])
      else (none, ["superlegal.extract_metadata"])

/-- `_route_book` (lines 199-215): wrapped call, first result wins. -/
def route_book (env : RouterEnv) (query : String) :
    Option CitationMetadata × List String :=
  match env.books_extract query with
  | Except.error _ => (none, ["books.extract_metadata"])
  | Except.ok [] => (none, ["books.extract_metadata"])
  | Except.ok (d :: _) =>
      (some (book_dict_to_metadata d query), ["books.extract_metadata"])

/-- `_route_journal` (lines 222-283): famous-papers cache, direct DOI
lookup, then the parallel fan-out.  When some pooled engine hangs past the
deadline, `as_completed` raises and the collected results are lost; otherwise
the first completed result carrying a DOI is preferred, else the first
completed result. -/
def route_journal (env : RouterEnv) (query : String) :
    Except PyExc (Option CitationMetadata) × List String :=
  let famousStep : Option CitationMetadata × List String :=
    match env.find_famous_paper query with
    | some fp =>
        (match env.crossref_get_by_id fp.doi with
         | Except.ok (some r) => (some r, ["crossref.get_by_id"])
         | _ => (none, ["crossref.get_by_id"]))
    | none => (none, [])
  match famousStep with
  | (some r, tr) => (Except.ok (some r), tr)
  | (none, tr0) =>
    let doiStep : Option CitationMetadata × List String :=
      match reSearchDoi doiTailChar query.data with
      | some m =>
          (match env.crossref_get_by_id (rstripDoi m) with
           | Except.ok (some r) => (some r, ["crossref.get_by_id"])
           | _ => (none, ["crossref.get_by_id"]))
      | none => (none, [])
    match doiStep with
    | (some r, tr) => (Except.ok (some r), tr0 ++ tr)
    | (none, tr1) =>
      let trPool := ["crossref.search", "openalex.search",
        "semantic_scholar.search", "pubmed.search"]
      if env.hangs query ≠ [] then
        (Except.error PyExc.futuresTimeout, tr0 ++ tr1 ++ trPool)
      else
        let results := (env.completion_order query).filterMap (fun i =>
          match env.engineSearch i query with
          | Except.ok (some r) =>
              if r.has_minimum_data then
                some { r with source_engine := engineName i }
              else none
          | _ => none)
        let best :=
          match results.find? (fun r => pyTruthy r.doi) with
          | some r => some r
          | none => results.head?
        (Except.ok best, tr0 ++ tr1 ++ trPool)

/-- `_route_url` (lines 296-353): DOI extracted from the URL, generic DOI
regex over the URL path, academic-publisher search, medical-domain PubMed
search, then generic extraction. -/
def route_url (env : RouterEnv) (url : String) :
    Option CitationMetadata × List String :=
  let step1 : Option CitationMetadata × List String :=
    match env.extract_doi_from_url url with
    | some doi =>
        (match env.crossref_get_by_id doi with
         | Except.ok (some r) =>
             if r.has_minimum_data then
               (some { r with url := some url }, ["crossref.get_by_id"])
             else (none, ["crossref.get_by_id"])
         | _ => (none, ["crossref.get_by_id"]))
    | none => (none, [])
  match step1 with
  | (some r, tr) => (some r, tr)
  | (none, tr1) =>
    let step2 : Option CitationMetadata × List String :=
      match reSearchDoi doiTailCharUrl url.data with
      | some m =>
          (match env.crossref_get_by_id (rstripDoi m) with
           | Except.ok (some r) =>
               if r.has_minimum_data then
                 (some { r with url := some url }, ["crossref.get_by_id"])
               else (none, ["crossref.get_by_id"])
           | _ => (none, ["crossref.get_by_id"]))
      | none => (none, [])
    match step2 with
    | (some r, tr) => (some r, tr1 ++ tr)
    | (none, tr2) =>
      let step3 : Option CitationMetadata × List String :=
        if env.is_academic_publisher_url url then
          (match env.crossref_search url with
           | Except.ok (some r) =>
               if r.has_minimum_data then
                 (some { r with url := some url }, ["crossref.search"])
               else (none, ["crossref.search"])
           | _ => (none, ["crossref.search"]))
        else (none, [])
      match step3 with
      | (some r, tr) => (some r, tr1 ++ tr2 ++ tr)
      | (none, tr3) =>
        let step4 : Option CitationMetadata × List String :=
          if is_medical_url url then
            (match env.pubmed_search url with
             | Except.ok (some r) =>
                 if r.has_minimum_data then
                   (some { r with url := some url }, ["pubmed.search"])
                 else (none, ["pubmed.search"])
             | _ => (none, ["pubmed.search"]))
          else (none, [])
        match step4 with
        | (some r, tr) => (some r, tr1 ++ tr2 ++ tr3 ++ tr)
        | (none, tr4) =>
            (env.extract_by_type url CitationType.url,
             tr1 ++ tr2 ++ tr3 ++ tr4 ++ ["extract_by_type"])

/-- The AI classification step of the unknown-query branch (lines 418-433):
consult the classifier when available and route by its coarse type; the
classifier's own metadata guess is discarded, as in the source. -/
def routeAiStep (env : RouterEnv) (q : String) :
    Except PyExc (Option CitationMetadata) × List String :=
  if env.ai_available then
    match (env.classify_with_ai q).1 with
    | CitationType.book =>
        let s := route_book env q
        (Except.ok s.1, "ai.classify" :: s.2)
    | CitationType.legal =>
        let s := route_legal env q
        (Except.ok s.1, "ai.classify" :: s.2)
    | CitationType.journal | CitationType.medical =>
        let s := route_journal env q
        (s.1, "ai.classify" :: s.2)
    | CitationType.newspaper =>
        (Except.ok (env.extract_by_type q CitationType.newspaper),
         ["ai.classify", "extract_by_type"])
    | CitationType.government =>
        (Except.ok (env.extract_by_type q CitationType.government),
         ["ai.classify", "extract_by_type"])
    | _ => (Except.ok none, ["ai.classify"])
  else (Except.ok none, [])

/-- The detection dispatch of `route_citation` steps 3-4 (lines 386-439),
including the AI branch and the books-then-journals fallback for unknown
queries. -/
def routeDispatch (env : RouterEnv) (q : String) :
    Except PyExc (Option CitationMetadata) × List String :=
  match env.detect_type q with
  | CitationType.legal =>
      let s := route_legal env q
      (Except.ok s.1, s.2)
  | CitationType.book =>
      let s := route_book env q
      (Except.ok s.1, s.2)
  | CitationType.journal | CitationType.medical =>
      (match env.find_famous_paper q with
       | some fp => (Except.ok (some (famous_to_metadata q fp)), [])
       | none => route_journal env q)
  | CitationType.newspaper =>
      (Except.ok (env.extract_by_type q CitationType.newspaper),
       ["extract_by_type"])
  | CitationType.government =>
      (Except.ok (env.extract_by_type q CitationType.government),
       ["extract_by_type"])
  | CitationType.interview =>
      (Except.ok (env.extract_by_type q CitationType.interview),
       ["extract_by_type"])
  | _ =>
      match routeAiStep env q with
      | (Except.error e, tr) => (Except.error e, tr)
      | (Except.ok (some md), tr) => (Except.ok (some md), tr)
      | (Except.ok none, trA) =>
          let sB := route_book env q
          match sB.1 with
          | some md => (Except.ok (some md), trA ++ sB.2)
          | none =>
              let sJ := route_journal env q
              (sJ.1, trA ++ sB.2 ++ sJ.2)

/-- `route_citation` (lines 360-445): empty-query early return, legal-first
check, URL check, detection dispatch, final formatting; on total
(non-raising) failure the function returns `(None, "")`. -/
def route_citation (env : RouterEnv) (query style : String) :
    Except PyExc (Option CitationMetadata × String) × List String :=
  let q := pyStripS query
  if q = "" then (Except.ok (none, ""), [])
  else
    let legalStep : Option CitationMetadata × List String :=
      if env.is_legal_citation q then route_legal env q else (none, [])
    match legalStep with
    | (some md, tr) => (Except.ok (some md, env.fmt style md), tr)
    | (none, tr1) =>
      let urlStep : Option CitationMetadata × List String :=
        if env.is_url q then route_url env q else (none, [])
      match urlStep with
      | (some md, tr) => (Except.ok (some md, env.fmt style md), tr1 ++ tr)
      | (none, tr2) =>
        match routeDispatch env q with
        | (Except.error e, tr) => (Except.error e, tr1 ++ tr2 ++ tr)
        | (Except.ok (some md), tr) =>
            (Except.ok (some md, env.fmt style md), tr1 ++ tr2 ++ tr)
        | (Except.ok none, tr) => (Except.ok (none, ""), tr1 ++ tr2 ++ tr)

/-- `get_citation` (lines 719-721): alias for `route_citation`. -/
def get_citation (env : RouterEnv) (query style : String) :
    Except PyExc (Option CitationMetadata × String) × List String :=
  route_citation env query style

/-! ### The hyperlink activator
(`LinkActivator`, `document_processor.py` lines 707-867)

`_process_xml_file` is a flat text transform: `re.sub` with the
case-sensitive pattern

  (<w:t[^>]*>)([^<]*?)(https?://[^\s<>"]+)([^<]*?)(</w:t>)

whose replacement callback inspects a bounded lookbehind window of the
original content (500 characters for the hyperlink-element balance, the last
200 of them for the `HYPERLINK` field-instruction check) and either keeps the
match or splices in a HYPERLINK field construct.  The embedding operates on
the file content as `List Char` with the scan position tracked as a natural
number. -/

/-- Case-sensitive literal match. -/
def matchLitCS : List Char → List Char → Option (List Char)
  | [], cs => some cs
  | _, [] => none
  | l :: ls, c :: cs => if c = l then matchLitCS ls cs else none

/-- Candidates for a lazy star `p*?`: shortest consumption first. -/
def lazyStarCands (p : Char → Bool) : List Char → List (List Char)
  | [] => [[]]
  | c :: cs => (c :: cs) :: (if p c then lazyStarCands p cs else [])

/-- The URL body class `[^\s<>"]`. -/
def urlChar (c : Char) : Bool :=
  ¬ pyWhitespace c ∧ c ≠ '<' ∧ c ≠ '>' ∧ c ≠ '"'

/-- Group 1, `<w:t[^>]*>`: literal open, maximal attribute span, closing
bracket.  Deterministic because the span class excludes `>`. -/
def matchTOpen (cs : List Char) : Option (List Char × List Char) :=
  match matchLitCS "<w:t".data cs with
  | none => none
  | some r =>
      let span := r.takeWhile (fun c => c ≠ '>')
      match r.drop span.length with
      | '>' :: r2 => some ("<w:t".data ++ span ++ ['>'], r2)
      | _ => none

/-- `https?://` at the start: with the `s` first (greedy `s?`), then
without. -/
def matchHttpCands (cs : List Char) : List (List Char × List Char) :=
  (match matchLitCS "https://".data cs with
   | some r => [("https://".data, r)]
   | none => []) ++
  (match matchLitCS "http://".data cs with
   | some r => [("http://".data, r)]
   | none => [])

/-- A successful match of the URL-in-text pattern at one position. -/
structure WtMatch where
  t_open : List Char
  before : List Char
  url : List Char
  after : List Char
  rest : List Char
  deriving DecidableEq, Repr

/-- Total length of the matched text. -/
def WtMatch.len (m : WtMatch) : Nat :=
  m.t_open.length + m.before.length + m.url.length + m.after.length + 6

/-- Attempt the whole pattern at the start of `cs`, respecting `re`
backtracking order (lazy groups 2 and 4, greedy group 3). -/
def matchWtAt (cs : List Char) : Option WtMatch :=
  match matchTOpen cs with
  | none => none
  | some (t_open, r1) =>
      ((lazyStarCands (fun c => c ≠ '<') r1).flatMap (fun r2 =>
        let before := consumedOf r1 r2
        (matchHttpCands r2).flatMap (fun hr =>
          (plusCands urlChar hr.2).flatMap (fun r3 =>
            let url := hr.1 ++ consumedOf hr.2 r3
            (lazyStarCands (fun c => c ≠ '<') r3).flatMap (fun r4 =>
              let after := consumedOf r3 r4
              match matchLitCS "</w:t>".data r4 with
              | some rest => [WtMatch.mk t_open before url after rest]
              | none => []))))).head?

/-- Occurrence count of a pattern (Python `str.count`; the two patterns this
file counts, `<w:hyperlink` and `</w:hyperlink>`, cannot overlap themselves,
so position counting coincides with Python non-overlapping counting). -/
def countOcc (pat : List Char) : List Char → Nat
  | [] => 0
  | c :: cs =>
      (if pat.isPrefixOf (c :: cs) then 1 else 0) + countOcc pat cs

/-- Python `html.escape` with default quoting. -/
def htmlEscapeChar (c : Char) : List Char :=
  if c = '&' then "&amp;".data
  else if c = '<' then "&lt;".data
  else if c = '>' then "&gt;".data
  else if c = '"' then "&quot;".data
  else if c = Char.ofNat 39 then "&#x27;".data
  else [c]

/-- Python `html.escape` over a character list. -/
def htmlEscape (l : List Char) : List Char :=
  l.flatMap htmlEscapeChar

/-- The trailing-punctuation set of `url.rstrip('.,;:)]\x27")` (line 806). -/
def urlRstripChar (c : Char) : Bool :=
  c == '.' || c == ',' || c == ';' || c == ':' || c == ')' || c == ']' ||
  c == Char.ofNat 39 || c == '"'

/-- `_build_hyperlink_field` (lines 838-867). -/
def build_hyperlink_field (safe_url display_text : List Char) : List Char :=
  "<w:r><w:fldChar w:fldCharType=\"begin\"/></w:r><w:r><w:instrText xml:space=\"preserve\"> HYPERLINK \"".data ++
  safe_url ++
  "\" </w:instrText></w:r><w:r><w:fldChar w:fldCharType=\"separate\"/></w:r><w:r><w:rPr><w:color w:val=\"0000FF\"/><w:u w:val=\"single\"/></w:rPr><w:t>".data ++
  htmlEscape display_text ++
  "</w:t></w:r><w:r><w:fldChar w:fldCharType=\"end\"/></w:r>".data

/-- The replacement callback `replace_url` (lines 783-829): consult the
lookbehind windows over the original `full` content at match position `pos`;
keep the match when it appears to sit inside a hyperlink, otherwise split the
run and splice in the field construct. -/
def replaceUrlMatch (full : List Char) (pos : Nat) (m : WtMatch) :
    List Char :=
  let ctx := (full.take pos).drop (pos - 500)
  let whole := m.t_open ++ m.before ++ m.url ++ m.after ++ "</w:t>".data
  if isSubstrOf "HYPERLINK".data (ctx.drop (ctx.length - 200)) then whole
  else if countOcc "<w:hyperlink".data ctx >
      countOcc "</w:hyperlink>".data ctx then whole
  else
    let clean_url := rstripP urlRstripChar m.url
    let trailing := m.url.drop clean_url.length
    let safe_url := htmlEscape clean_url
    let part1 :=
      if m.before ≠ [] then
        m.t_open ++ m.before ++ "</w:t>".data ++ "</w:r>".data
      else "</w:r>".data
    let after_text := trailing ++ m.after
    let part3 :=
      if after_text ≠ [] then
        "<w:r>".data ++ m.t_open ++ after_text ++ "</w:t>".data
      else "<w:r>".data
    part1 ++ build_hyperlink_field safe_url clean_url ++ part3

/-- The `re.sub` scan: leftmost non-overlapping matches over the original
content, each replaced through `replaceUrlMatch` (which, as in the source,
closes over the original content for its lookbehind).  `fuel` bounds the
recursion; every step consumes at least one character, so an initial fuel of
the content length is ample. -/
def linkSubGo (full : List Char) : Nat → Nat → List Char → List Char
  | 0, _, cs => cs
  | fuel + 1, pos, cs =>
      match cs with
      | [] => []
      | c :: rest =>
          match matchWtAt cs with
          | some m =>
              replaceUrlMatch full pos m ++
              linkSubGo full fuel (pos + m.len) (cs.drop m.len)
          | none => c :: linkSubGo full fuel (pos + 1) rest

/-- `LinkActivator._process_xml_file` as a content transform (lines
774-836). -/
def process_xml_content (content : String) : String :=
  String.mk (linkSubGo content.data content.data.length 0 content.data)

/-! ### The upload endpoint (`app.py` lines 627-671)

`/process` validates the upload, then calls
`process_document(docx_bytes, word_count=word_count, format_style=format_style)`.
Python binds keyword arguments against the callee signature
`process_document(file_bytes, style="Chicago Manual of Style",
add_links=True)` (`document_processor.py` lines 870-874) and raises
`TypeError` for any unexpected keyword; the endpoint's `except` turns any
exception into a 500 JSON error. -/

/-- Parameter names of `document_processor.process_document`. -/
def process_document_params : List String :=
  ["file_bytes", "style", "add_links"]

/-- Keyword-argument names used at the `app.py` call site (line 653). -/
def process_call_kwargs : List String :=
  ["word_count", "format_style"]

/-- Python keyword binding succeeds only when every keyword names a
parameter (the call also passes one positional argument, which binds to the
first parameter and conflicts with no keyword here). -/
def kwargsAccepted (params kwargs : List String) : Bool :=
  kwargs.all (fun k => params.contains k)

/-- An upload request seen by the `/process` endpoint. -/
structure UploadRequest where
  has_file : Bool
  filename : String
  deriving DecidableEq, Repr

/-- Responses of the `/process` endpoint: a JSON error with an HTTP status,
or a transformed document. -/
inductive ProcessResponse where
  | jsonError (status : Nat)
  | document
  deriving DecidableEq, Repr

/-- Python `str.endswith('.docx')`. -/
def endsWithDocx (name : String) : Bool :=
  ".docx".data.isSuffixOf name.data

/-- The `/process` handler `process` (`app.py` lines 627-671): validation
returns 400; inside the `try` block the `process_document` call binds its
keyword arguments — on a binding failure (`TypeError`) control reaches the
`except` clause, which answers 500; only a successful call chain would reach
`send_file`. -/
def app_process (req : UploadRequest) : ProcessResponse :=
  if ¬ req.has_file then ProcessResponse.jsonError 400
  else if req.filename = "" then ProcessResponse.jsonError 400
  else if ¬ endsWithDocx req.filename then ProcessResponse.jsonError 400
  else if ¬ kwargsAccepted process_document_params process_call_kwargs then
    ProcessResponse.jsonError 500
  else ProcessResponse.document

/-! ### Concrete instances used by witnesses and counterexamples -/

/-- A resolved book record (title plus first author yields a source key). -/
def mWidgets : CitationMetadata :=
  { citation_type := CitationType.book
    title := some "Widgets"
    authors := ["Smith"]
    year := some "2001" }

/-- A second, distinct book record. -/
def mGadgets : CitationMetadata :=
  { citation_type := CitationType.book
    title := some "Gadgets"
    authors := ["Jones"]
    year := some "1999" }

/-- A record with no identifying field at all: its source key is null. -/
def mNoKey : CitationMetadata := {}

/-- A simple ibid formatter in the shape of `BaseFormatter.format_ibid`. -/
def ibidFmt : Option String → String
  | some pg => "Ibid., " ++ pg ++ "."
  | none => "Ibid."

/-- A note-processing oracle resolving the three raw texts the scenarios
use. -/
def noteEnv0 : NoteEnv :=
  { resolve := fun t =>
      if t = "Smith, Widgets, 2001" then
        (some mWidgets, some "Smith, FULL-WIDGETS.")
      else if t = "Jones, Gadgets, 1999" then
        (some mGadgets, some "Jones, FULL-GADGETS.")
      else if t = "Smith Widgets 2001 again" then
        (some mWidgets, some "Smith, FULL-WIDGETS-2.")
      else (none, none)
    format_short := fun m => "SHORT:" ++ m.title.getD ""
    format_ibid := ibidFmt }

/-- The spec's three-endnote scenario: full citation, explicit ibid with
page 12, then the same raw text again. -/
def notesScenario : List Note :=
  [⟨"1", "Smith, Widgets, 2001"⟩, ⟨"2", "ibid., 12"⟩,
   ⟨"3", "Smith, Widgets, 2001"⟩]

/-- A run reaching the short-form branch: source A, source B, then source A
again under different raw text. -/
def notesShortForm : List Note :=
  [⟨"1", "Smith, Widgets, 2001"⟩, ⟨"2", "Jones, Gadgets, 1999"⟩,
   ⟨"3", "Smith Widgets 2001 again"⟩]

/-- A run with an antecedent-less ibid, a resolution failure, and a
success. -/
def notesMixed : List Note :=
  [⟨"1", "ibid., 7"⟩, ⟨"2", "Unknown source xyz"⟩,
   ⟨"3", "Smith, Widgets, 2001"⟩]

/-- A book dict as returned by the books engine. -/
def bookHit : BookData :=
  { title := some "Widgets", authors := ["Smith"], year := some "2001" }

/-- A router oracle environment where every provider fails to find
anything and nothing hangs. -/
def baseRouterEnv : RouterEnv :=
  { is_legal_citation := fun _ => false
    is_url := fun _ => false
    detect_type := fun _ => CitationType.unknown
    fmt := fun _ m => "FMT:" ++ m.title.getD (m.case_name.getD "")
    superlegal_extract := fun _ => Except.ok none
    books_extract := fun _ => Except.ok []
    find_famous_paper := fun _ => none
    crossref_get_by_id := fun _ => Except.ok none
    crossref_search := fun _ => Except.ok none
    openalex_search := fun _ => Except.ok none
    semantic_search := fun _ => Except.ok none
    pubmed_search := fun _ => Except.ok none
    hangs := fun _ => []
    completion_order := fun _ => [0, 1, 2, 3]
    extract_doi_from_url := fun _ => none
    is_academic_publisher_url := fun _ => false
    extract_by_type := fun _ _ => none
    ai_available := false
    classify_with_ai := fun _ => (CitationType.unknown, none) }

/-- A router environment whose classifier routes to books and whose book
engine has a hit. -/
def envBook : RouterEnv :=
  { baseRouterEnv with
    detect_type := fun _ => CitationType.book
    books_extract := fun _ => Except.ok [bookHit] }

/-- A router environment where the query classifies as a journal article
and the PubMed future outlasts the 12-second pool deadline. -/
def envJournalHang : RouterEnv :=
  { baseRouterEnv with
    detect_type := fun _ => CitationType.journal
    hangs := fun _ => [3] }

/-- A journal-classified environment where every engine completes and finds
nothing. -/
def envJournalEmpty : RouterEnv :=
  { baseRouterEnv with
    detect_type := fun _ => CitationType.journal }

/-- A 60-character URL: long enough that the HYPERLINK field instruction
generated by the first activator pass falls outside the 200-character
lookbehind window of the second pass. -/
def urlLong : String :=
  "https://example.com/aaaaaaaaaaaaaaaaaaaaaaaaaaaaaaaaaaaaaaaa"

/-- A document part whose single text run holds the long URL. -/
def activatorLongDoc : String :=
  "<w:t>" ++ urlLong ++ "</w:t>"

/-- A document part whose single text run holds a short URL. -/
def activatorShortDoc : String :=
  "<w:t>https://a.com/x</w:t>"

/-- A well-formed upload. -/
def reqDocx : UploadRequest :=
  ⟨true, "paper.docx"⟩

/-- What a candidate producer may consume: every returned remainder is a
suffix whose dropped text satisfies `P` characterwise. -/
def Consumes (P : Char → Prop) (f : List Char → List (List Char)) : Prop :=
  ∀ cs r, r ∈ f cs → ∃ t, cs = t ++ r ∧ ∀ c ∈ t, P c

/-- Non-digit characters. -/
def ND (c : Char) : Prop :=
  isDigitCh c = false

/-- The claim's notion of a numeric or numeric-range token: one digit run,
or two digit runs joined by a single dash. -/
def isNumericOrRange (p : String) : Bool :=
  let c := p.data
  let d1 := c.takeWhile isDigitCh
  if d1 = [] then false
  else
    match c.drop d1.length with
    | [] => true
    | c0 :: d2 => isIbidDash c0 && d2 ≠ [] && d2.all isDigitCh

/-! ## Theorems -/

/-! ### History lemmas -/

/-- Adding always rewrites `previous` with the fresh entry. -/
lemma add_previous (h : CitationHistory) (m : CitationMetadata) (f : String) :
    (h.add m f).previous =
      some ⟨m, f, generate_source_key (some m), h.note_counter + 1⟩ := rfl

/-- Adding always bumps the note counter. -/
lemma add_note_counter (h : CitationHistory) (m : CitationMetadata)
    (f : String) : (h.add m f).note_counter = h.note_counter + 1 := rfl

/-- A null-key add leaves `all_sources` untouched. -/
lemma add_all_sources_of_key_none (h : CitationHistory)
    (m : CitationMetadata) (f : String)
    (hk : generate_source_key (some m) = none) :
    (h.add m f).all_sources = h.all_sources := by
  simp [CitationHistory.add, hk]

/-- A key freshly appended to the map is found. -/
lemma hasSourceKey_append_self (l : List (String × CitationHistoryEntry))
    (k : String) (e : CitationHistoryEntry) :
    hasSourceKey (l ++ [(k, e)]) k = true := by
  simp [hasSourceKey, List.any_append]

/-- After adding a record with key `k`, the map contains `k`. -/
lemma add_hasKey (h : CitationHistory) (m : CitationMetadata) (f : String)
    (k : String) (hk : generate_source_key (some m) = some k) :
    hasSourceKey (h.add m f).all_sources k = true := by
  simp only [CitationHistory.add, hk]
  cases hmem : hasSourceKey h.all_sources k with
  | true => simp [hmem]
  | false => simp [hmem, hasSourceKey_append_self]

/-- Records with the same non-null key match. -/
lemma sources_match_of_keys (m1 m2 : CitationMetadata) (k : String)
    (h1 : generate_source_key (some m1) = some k)
    (h2 : generate_source_key (some m2) = some k) :
    sources_match (some m1) (some m2) = true := by
  simp [sources_match, h1, h2]

/-- A null key on the left forbids a match. -/
lemma sources_match_none_left (m1 m2 : Option CitationMetadata)
    (h1 : generate_source_key m1 = none) :
    sources_match m1 m2 = false := by
  simp [sources_match, h1]

/-- A null key on the right forbids a match. -/
lemma sources_match_none_right (m1 m2 : Option CitationMetadata)
    (h2 : generate_source_key m2 = none) :
    sources_match m1 m2 = false := by
  rcases hk : generate_source_key m1 with _ | k1 <;>
    simp [sources_match, hk, h2]

/-- C5: two records with equal non-null source keys are reported matching by
`sources_match`, by `is_same_as_previous` when the first is the previous
entry, and by `has_been_cited_before` after the first has been added; with a
null key on either side all three report false (the `has_been_cited_before`
case over the history holding just that one null-key add). -/
theorem sourceKey_equality_semantics
    (m1 m2 m3 m4 : CitationMetadata) (k : String) (h h' : CitationHistory)
    (f f' : String)
    (h1 : generate_source_key (some m1) = some k)
    (h2 : generate_source_key (some m2) = some k)
    (h34 : generate_source_key (some m3) = none ∨
      generate_source_key (some m4) = none) :
    (sources_match (some m1) (some m2) = true ∧
     (h.add m1 f).is_same_as_previous m2 = true ∧
     (h.add m1 f).has_been_cited_before m2 = true) ∧
    (sources_match (some m3) (some m4) = false ∧
     (h'.add m3 f').is_same_as_previous m4 = false ∧
     (CitationHistory.emptyH.add m3 f').has_been_cited_before m4 = false) := by
  refine ⟨⟨sources_match_of_keys m1 m2 k h1 h2, ?_, ?_⟩, ?_, ?_, ?_⟩
  · simp only [CitationHistory.is_same_as_previous, add_previous]
    exact sources_match_of_keys m2 m1 k h2 h1
  · simp only [CitationHistory.has_been_cited_before, h2]
    exact add_hasKey h m1 f k h1
  · rcases h34 with h3 | h4
    · exact sources_match_none_left _ _ h3
    · exact sources_match_none_right _ _ h4
  · simp only [CitationHistory.is_same_as_previous, add_previous]
    rcases h34 with h3 | h4
    · exact sources_match_none_right _ _ h3
    · exact sources_match_none_left _ _ h4
  · rcases h34 with h3 | h4
    · rcases hk4 : generate_source_key (some m4) with _ | k4
      · simp [CitationHistory.has_been_cited_before, hk4]
      · simp only [CitationHistory.has_been_cited_before, hk4]
        rw [add_all_sources_of_key_none _ _ _ h3]
        simp [CitationHistory.emptyH, hasSourceKey]
    · simp [CitationHistory.has_been_cited_before, h4]

/-- Witness for C5 at concrete records: two copies of the Widgets record
share the key `title:widgets|author:smith`, and the empty record has a null
key. -/
theorem sourceKey_equality_semantics_witness :
    generate_source_key (some mWidgets) =
      some "title:widgets|author:smith" ∧
    generate_source_key (some mNoKey) = none ∧
    sources_match (some mWidgets) (some mWidgets) = true ∧
    sources_match (some mNoKey) (some mNoKey) = false := by
  have t := sourceKey_equality_semantics mWidgets mWidgets mNoKey mNoKey
    "title:widgets|author:smith" CitationHistory.emptyH
    CitationHistory.emptyH "f" "f" (by decide) (by decide)
    (Or.inl (by decide))
  exact ⟨by decide, by decide, t.1.1, t.2.1⟩

/-- Key soundness of `all_sources` is preserved by `add`. -/
lemma add_all_sources_sound (h : CitationHistory)
    (inv : ∀ p ∈ h.all_sources, p.2.source_key = some p.1)
    (m : CitationMetadata) (f : String) :
    ∀ p ∈ (h.add m f).all_sources, p.2.source_key = some p.1 := by
  intro p hp
  rcases hk : generate_source_key (some m) with _ | k
  · rw [add_all_sources_of_key_none _ _ _ hk] at hp
    exact inv p hp
  · obtain ⟨pk, pe⟩ := p
    simp only [CitationHistory.add, hk] at hp
    cases hmem : hasSourceKey h.all_sources k with
    | true =>
        simp only [hmem, if_true] at hp
        exact inv _ hp
    | false =>
        simp [hmem] at hp
        rcases hp with old | ⟨hpk, hpe⟩
        · exact inv _ old
        · subst hpk; subst hpe; rfl

/-- Key soundness of `all_sources` holds along any sequence of adds. -/
lemma runAdds_sound (l : List (CitationMetadata × String)) :
    ∀ h : CitationHistory,
      (∀ p ∈ h.all_sources, p.2.source_key = some p.1) →
      ∀ p ∈ (l.foldl (fun hh x => hh.add x.1 x.2) h).all_sources,
        p.2.source_key = some p.1 := by
  induction l with
  | nil => intro h inv; simpa using inv
  | cons x xs ih =>
      intro h inv
      exact ih (h.add x.1 x.2) (add_all_sources_sound h inv x.1 x.2)

/-- C10: adding a record whose generated key is null still rewrites
`previous` (with a null-key entry) and bumps the counter, but never touches
`all_sources`; along any add sequence from the fresh history every stored
entry carries its own non-null key; and `has_been_cited_before` is false for
a null-key record against any history. -/
theorem nullKey_add_behavior (m : CitationMetadata) (f : String)
    (h : CitationHistory) (l : List (CitationMetadata × String))
    (hk : generate_source_key (some m) = none) :
    ((h.add m f).previous = some ⟨m, f, none, h.note_counter + 1⟩ ∧
     (h.add m f).note_counter = h.note_counter + 1 ∧
     (h.add m f).all_sources = h.all_sources) ∧
    (∀ p ∈ (l.foldl (fun hh x => hh.add x.1 x.2)
        CitationHistory.emptyH).all_sources, p.2.source_key = some p.1) ∧
    h.has_been_cited_before m = false := by
  refine ⟨⟨?_, add_note_counter h m f,
    add_all_sources_of_key_none h m f hk⟩, ?_, ?_⟩
  · rw [add_previous, hk]
  · exact runAdds_sound l CitationHistory.emptyH (by simp [CitationHistory.emptyH])
  · simp [CitationHistory.has_been_cited_before, hk]

/-- Witness for C10 at the empty record over a two-add run. -/
theorem nullKey_add_behavior_witness :
    generate_source_key (some mNoKey) = none ∧
    (CitationHistory.emptyH.add mNoKey "x").all_sources =
      CitationHistory.emptyH.all_sources ∧
    CitationHistory.emptyH.has_been_cited_before mNoKey = false := by
  have t := nullKey_add_behavior mNoKey "x" CitationHistory.emptyH
    [(mNoKey, "x"), (mWidgets, "y")] (by decide)
  exact ⟨by decide, t.1.2.2, t.2.2⟩

/-! ### The upload endpoint (C9) -/

/-- C9: every validated `.docx` upload makes the endpoint call
`process_document` with the keywords `word_count` and `format_style`, which
its signature `(file_bytes, style, add_links)` rejects; the `TypeError`
lands in the `except` clause, so the endpoint answers 500 and never returns
a document. -/
theorem endpoint_always_500 (req : UploadRequest)
    (hf : req.has_file = true) (hn : req.filename ≠ "")
    (hd : endsWithDocx req.filename = true) :
    app_process req = ProcessResponse.jsonError 500 ∧
    app_process req ≠ ProcessResponse.document ∧
    kwargsAccepted process_document_params process_call_kwargs = false := by
  have hkw : kwargsAccepted process_document_params process_call_kwargs
      = false := by decide
  refine ⟨?_, ?_, hkw⟩ <;> simp [app_process, hf, hn, hd, hkw]

/-- Witness for C9 at a concrete well-formed upload. -/
theorem endpoint_always_500_witness :
    reqDocx.has_file = true ∧ reqDocx.filename ≠ "" ∧
    endsWithDocx reqDocx.filename = true ∧
    app_process reqDocx = ProcessResponse.jsonError 500 := by
  have t := endpoint_always_500 reqDocx (by decide) (by decide) (by decide)
  exact ⟨by decide, by decide, by decide, t.1⟩

/-! ### Note-loop totality (C8) -/

/-- Every branch of `process_single_note` keeps the original text. -/
lemma process_single_note_original (env : NoteEnv) (h : CitationHistory)
    (n : Note) : (process_single_note env h n).1.original = n.text := by
  unfold process_single_note
  dsimp only
  repeat' split
  all_goals rfl

/-- Every failing branch of `process_single_note` echoes the original text
as the formatted text. -/
lemma process_single_note_fail_formatted (env : NoteEnv)
    (h : CitationHistory) (n : Note) :
    (process_single_note env h n).1.success = false →
    (process_single_note env h n).1.formatted = n.text := by
  unfold process_single_note
  dsimp only
  repeat' split
  all_goals intro hs
  all_goals first | rfl | simp at hs

/-- C8: the note loop always completes with exactly one processed citation
per note, in input order, and every unsuccessful citation retains the
original note text as its formatted text. -/
theorem run_completes_per_note (env : NoteEnv) (notes : List Note)
    (h : CitationHistory) :
    (processNotes env notes h).1.length = notes.length ∧
    (processNotes env notes h).1.map ProcessedCitation.original =
      notes.map Note.text ∧
    (∀ r ∈ (processNotes env notes h).1, r.success = false →
      r.formatted = r.original) := by
  induction notes generalizing h with
  | nil => simp [processNotes]
  | cons n ns ih =>
      obtain ⟨hl, hm, hf⟩ := ih (process_single_note env h n).2
      refine ⟨?_, ?_, ?_⟩
      · simp [processNotes, hl]
      · simp [processNotes, hm, process_single_note_original env h n]
      · intro r hr hs
        simp only [processNotes, List.mem_cons] at hr
        rcases hr with rfl | hr
        · rw [process_single_note_fail_formatted env h n hs,
            process_single_note_original env h n]
        · exact hf r hr hs

/-- Witness for C8 on a run containing an antecedent-less ibid, a
resolution failure, and a success. -/
theorem run_completes_per_note_witness :
    (processNotes noteEnv0 notesMixed CitationHistory.emptyH).1.map
      ProcessedCitation.original = notesMixed.map Note.text ∧
    (processNotes noteEnv0 notesMixed CitationHistory.emptyH).1.headI.formatted =
      (processNotes noteEnv0 notesMixed CitationHistory.emptyH).1.headI.original := by
  have t := run_completes_per_note noteEnv0 notesMixed CitationHistory.emptyH
  exact ⟨t.2.1,
    t.2.2 (processNotes noteEnv0 notesMixed CitationHistory.emptyH).1.headI
      (by decide) (by decide)⟩

/-! ### The three-note scenario (C1) -/

/-- The fresh history has no previous URL worth comparing. -/
lemma emptyH_prev_url_falsy :
    pyTruthy CitationHistory.emptyH.get_previous_url = false := rfl

/-- Nothing matches the previous entry of a fresh history. -/
lemma emptyH_is_same (m : CitationMetadata) :
    CitationHistory.emptyH.is_same_as_previous m = false := rfl

/-- Nothing has been cited before in a fresh history. -/
lemma emptyH_has_been (m : CitationMetadata) :
    CitationHistory.emptyH.has_been_cited_before m = false := by
  rcases hk : generate_source_key (some m) with _ | k <;>
    simp [CitationHistory.has_been_cited_before, hk, hasSourceKey,
      CitationHistory.emptyH]

/-- A resolving, non-ibid first note over a fresh history takes the full
branch and adds the full-form text to the history. -/
lemma first_note_full (env : NoteEnv) (n : Note) (M1 : CitationMetadata)
    (f1 : String) (h1 : is_ibid n.text = false)
    (hr1 : env.resolve n.text = (some M1, some f1)) (hf1 : f1 ≠ "") :
    (process_single_note env CitationHistory.emptyH n).1.citation_form =
      "full" ∧
    (process_single_note env CitationHistory.emptyH n).2 =
      CitationHistory.emptyH.add M1 f1 := by
  simp [process_single_note, h1, hr1, hf1, emptyH_prev_url_falsy,
    emptyH_is_same, emptyH_has_been]

/-- An explicit ibid note with a previous entry takes the ibid branch and
leaves the history untouched. -/
lemma ibid_note_keeps (env : NoteEnv) (h : CitationHistory) (n : Note)
    (e : CitationHistoryEntry) (h2 : is_ibid n.text = true)
    (hp : h.previous = some e) :
    (process_single_note env h n).1.citation_form = "ibid" ∧
    (process_single_note env h n).2 = h := by
  simp [process_single_note, h2, CitationHistory.get_previous_metadata, hp]

/-- A resolving note whose key equals the previous entry's key takes an ibid
branch (through the URL-repeat check or the same-as-previous check) and
leaves the history untouched. -/
lemma same_key_note_ibid (env : NoteEnv) (h : CitationHistory) (n : Note)
    (e : CitationHistoryEntry) (M3 : CitationMetadata) (f3 k : String)
    (h3 : is_ibid n.text = false)
    (hr3 : env.resolve n.text = (some M3, some f3)) (hf3 : f3 ≠ "")
    (hp : h.previous = some e)
    (hke : generate_source_key (some e.metadata) = some k)
    (hk3 : generate_source_key (some M3) = some k) :
    (process_single_note env h n).1.citation_form = "ibid" ∧
    (process_single_note env h n).2 = h := by
  have hsame : h.is_same_as_previous M3 = true := by
    simp only [CitationHistory.is_same_as_previous, hp]
    exact sources_match_of_keys M3 e.metadata k hk3 hke
  simp [process_single_note, h3, hr3, hf3, hsame]
  repeat' split
  all_goals exact ⟨rfl, rfl⟩

/-- Counterexample to C1: in the spec's three-endnote scenario the explicit
ibid note does not update the history, so the third note still matches the
previous entry (note 1) and is rendered as ibid, not short: the forms are
[full, ibid, ibid], not [full, ibid, short]. -/
theorem scenario_forms_counterexample :
    is_ibid "Smith, Widgets, 2001" = false ∧
    noteEnv0.resolve "Smith, Widgets, 2001" =
      (some mWidgets, some "Smith, FULL-WIDGETS.") ∧
    is_ibid "ibid., 12" = true ∧
    extract_ibid_page "ibid., 12" = some "12" ∧
    generate_source_key (some mWidgets) = some "title:widgets|author:smith" ∧
    (process_document noteEnv0 notesScenario).1.map
      ProcessedCitation.citation_form = ["full", "ibid", "ibid"] ∧
    (process_document noteEnv0 notesScenario).1.map
      ProcessedCitation.citation_form ≠ ["full", "ibid", "short"] := by
  refine ⟨by decide, by decide, by decide, by decide, by decide, by decide,
    by decide⟩

/-- C1 (amended): for every document whose notes are (1) a non-ibid note
resolving to metadata with source key `k`, (2) an explicit ibid note, and
(3) a non-ibid note resolving to metadata with the same key `k`,
`process_document` produces the citation forms [full, ibid, ibid]: the ibid
note leaves the history's previous entry at note 1, so note 3 matches the
previous citation and renders as ibid rather than short. -/
theorem scenario_forms_full_ibid_ibid (env : NoteEnv)
    (t1 t2 t3 i1 i2 i3 : String) (M1 M3 : CitationMetadata) (f1 f3 k : String)
    (h1 : is_ibid t1 = false)
    (hr1 : env.resolve t1 = (some M1, some f1)) (hf1 : f1 ≠ "")
    (hk1 : generate_source_key (some M1) = some k)
    (h2 : is_ibid t2 = true)
    (h3 : is_ibid t3 = false)
    (hr3 : env.resolve t3 = (some M3, some f3)) (hf3 : f3 ≠ "")
    (hk3 : generate_source_key (some M3) = some k) :
    (process_document env [⟨i1, t1⟩, ⟨i2, t2⟩, ⟨i3, t3⟩]).1.map
      ProcessedCitation.citation_form = ["full", "ibid", "ibid"] := by
  have s1 := first_note_full env ⟨i1, t1⟩ M1 f1 h1 hr1 hf1
  have s2 := ibid_note_keeps env (CitationHistory.emptyH.add M1 f1) ⟨i2, t2⟩
    ⟨M1, f1, generate_source_key (some M1),
      CitationHistory.emptyH.note_counter + 1⟩ h2
    (add_previous CitationHistory.emptyH M1 f1)
  have s3 := same_key_note_ibid env (CitationHistory.emptyH.add M1 f1)
    ⟨i3, t3⟩
    ⟨M1, f1, generate_source_key (some M1),
      CitationHistory.emptyH.note_counter + 1⟩ M3 f3 k h3 hr3 hf3
    (add_previous CitationHistory.emptyH M1 f1) hk1 hk3
  simp only [process_document, processNotes]
  rw [s1.2, s2.2]
  simp [s1.1, s2.1, s3.1]

/-- Witness for the amended C1 at the concrete scenario. -/
theorem scenario_forms_full_ibid_ibid_witness :
    is_ibid "Smith, Widgets, 2001" = false ∧
    is_ibid "ibid., 12" = true ∧
    (process_document noteEnv0 notesScenario).1.map
      ProcessedCitation.citation_form = ["full", "ibid", "ibid"] := by
  refine ⟨by decide, by decide, ?_⟩
  exact scenario_forms_full_ibid_ibid noteEnv0
    "Smith, Widgets, 2001" "ibid., 12" "Smith, Widgets, 2001" "1" "2" "3"
    mWidgets mWidgets "Smith, FULL-WIDGETS." "Smith, FULL-WIDGETS."
    "title:widgets|author:smith" (by decide) (by decide) (by decide)
    (by decide) (by decide) (by decide) (by decide) (by decide) (by decide)

/-! ### History writes (C2) -/

/-- Counterexample to C2: a run reaching the short-form branch stores the
short-form text in the history, not the full-form text returned by the
resolver. -/
theorem history_add_short_text_counterexample :
    (process_document noteEnv0 notesShortForm).1.map
      ProcessedCitation.citation_form = ["full", "full", "short"] ∧
    (noteEnv0.resolve "Smith Widgets 2001 again").2 =
      some "Smith, FULL-WIDGETS-2." ∧
    (process_document noteEnv0 notesShortForm).2.previous.map
      CitationHistoryEntry.formatted = some "SHORT:Widgets" ∧
    "SHORT:Widgets" ≠ "Smith, FULL-WIDGETS-2." := by
  refine ⟨by decide, by decide, by decide, by decide⟩

/-- C2 (amended): `CitationHistory.add` is called only in the short-form and
full-form branches — ibid decisions and failures leave the history
untouched; the full branch stores the resolver's full-form text, but the
short branch stores the short-form text it just rendered. -/
theorem history_written_only_on_short_or_full (env : NoteEnv)
    (h : CitationHistory) (n : Note) :
    ((process_single_note env h n).1.success = false →
      (process_single_note env h n).2 = h) ∧
    ((process_single_note env h n).1.citation_form = "ibid" →
      (process_single_note env h n).2 = h) ∧
    ((process_single_note env h n).1.citation_form = "short" →
      ∃ md, (process_single_note env h n).1.metadata = some md ∧
        (process_single_note env h n).1.formatted = env.format_short md ∧
        (process_single_note env h n).2 =
          h.add md (env.format_short md)) ∧
    ((process_single_note env h n).1.citation_form = "full" →
      (process_single_note env h n).1.success = true →
      ∃ md, (process_single_note env h n).1.metadata = some md ∧
        (env.resolve n.text).2 =
          some ((process_single_note env h n).1.formatted) ∧
        (process_single_note env h n).2 =
          h.add md ((process_single_note env h n).1.formatted)) := by
  refine ⟨?_, ?_, ?_, ?_⟩
  · unfold process_single_note
    dsimp only
    repeat' split
    all_goals intro hs
    all_goals first | rfl | simp at hs
  · unfold process_single_note
    dsimp only
    repeat' split
    all_goals intro hs
    all_goals first
      | rfl
      | exact absurd (show ("short" : String) = "ibid" from hs) (by decide)
      | exact absurd (show ("full" : String) = "ibid" from hs) (by decide)
  · unfold process_single_note
    dsimp only
    repeat' split
    all_goals intro hs
    all_goals first
      | exact absurd (show ("ibid" : String) = "short" from hs) (by decide)
      | exact absurd (show ("full" : String) = "short" from hs) (by decide)
      | exact ⟨_, rfl, rfl, rfl⟩
  · unfold process_single_note
    dsimp only
    repeat' split
    all_goals intro hs hsucc
    all_goals first
      | exact absurd (show false = true from hsucc) (by decide)
      | exact absurd (show ("ibid" : String) = "full" from hs) (by decide)
      | exact absurd (show ("short" : String) = "full" from hs) (by decide)
      | exact ⟨_, rfl, by assumption, rfl⟩

/-- Witness for the amended C2: the short-form branch at a concrete history
holding both sources. -/
theorem history_written_only_on_short_or_full_witness :
    ((process_single_note noteEnv0
        ((CitationHistory.emptyH.add mWidgets "Smith, FULL-WIDGETS.").add
          mGadgets "Jones, FULL-GADGETS.")
        ⟨"3", "Smith Widgets 2001 again"⟩).1.citation_form = "short") ∧
    (∃ md, (process_single_note noteEnv0
        ((CitationHistory.emptyH.add mWidgets "Smith, FULL-WIDGETS.").add
          mGadgets "Jones, FULL-GADGETS.")
        ⟨"3", "Smith Widgets 2001 again"⟩).1.metadata = some md ∧
      (process_single_note noteEnv0
        ((CitationHistory.emptyH.add mWidgets "Smith, FULL-WIDGETS.").add
          mGadgets "Jones, FULL-GADGETS.")
        ⟨"3", "Smith Widgets 2001 again"⟩).1.formatted =
        noteEnv0.format_short md ∧
      (process_single_note noteEnv0
        ((CitationHistory.emptyH.add mWidgets "Smith, FULL-WIDGETS.").add
          mGadgets "Jones, FULL-GADGETS.")
        ⟨"3", "Smith Widgets 2001 again"⟩).2 =
        ((CitationHistory.emptyH.add mWidgets "Smith, FULL-WIDGETS.").add
          mGadgets "Jones, FULL-GADGETS.").add md
          (noteEnv0.format_short md)) := by
  refine ⟨by decide, ?_⟩
  exact (history_written_only_on_short_or_full noteEnv0
    ((CitationHistory.emptyH.add mWidgets "Smith, FULL-WIDGETS.").add
      mGadgets "Jones, FULL-GADGETS.")
    ⟨"3", "Smith Widgets 2001 again"⟩).2.2.1 (by decide)

/-! ### Router caching (C3)

`route_citation` carries no cache: its value and its provider-call trace are
pure functions of the oracle environment and the query, so a second request
with an identical `(query, style)` pair is the very same evaluation — with
the very same non-empty provider trace. -/

/-- Counterexample to C3: a book-classified query's (repeated) invocation
carries the provider call `books.extract_metadata` in its trace — no cache
lookup short-circuits the dispatch, and `get_citation` is a bare alias. -/
theorem no_cache_on_repeat_counterexample :
    (route_citation envBook "Smith, Widgets, 2001" "chicago").2 =
      ["books.extract_metadata"] ∧
    (route_citation envBook "Smith, Widgets, 2001" "chicago").2 ≠ [] ∧
    get_citation envBook "Smith, Widgets, 2001" "chicago" =
      route_citation envBook "Smith, Widgets, 2001" "chicago" := by
  refine ⟨by decide, by decide, rfl⟩

/-- C3 (amended): the router has no resolution cache — every call with a
given `(query, style)`, including an identical repeated one, performs the
full dispatch and re-invokes the providers (here: a book-classified query
reaches `books.extract_metadata` on every call). -/
theorem dispatch_always_reinvokes_providers (env : RouterEnv) (q s : String)
    (hq : pyStripS q ≠ "")
    (hl : env.is_legal_citation (pyStripS q) = false)
    (hu : env.is_url (pyStripS q) = false)
    (hd : env.detect_type (pyStripS q) = CitationType.book) :
    (route_citation env q s).2 = ["books.extract_metadata"] ∧
    (route_citation env q s).2 ≠ [] := by
  have main : (route_citation env q s).2 = ["books.extract_metadata"] := by
    rcases hbe : env.books_extract (pyStripS q) with u | bl
    · simp [route_citation, routeDispatch, route_book, hq, hl, hu, hd, hbe]
    · cases bl <;>
        simp [route_citation, routeDispatch, route_book, hq, hl, hu, hd, hbe]
  exact ⟨main, by simp [main]⟩

/-- Witness for the amended C3 at the concrete book environment. -/
theorem dispatch_always_reinvokes_providers_witness :
    pyStripS "Smith, Widgets, 2001" ≠ "" ∧
    envBook.detect_type (pyStripS "Smith, Widgets, 2001") =
      CitationType.book ∧
    (route_citation envBook "Smith, Widgets, 2001" "chicago").2 =
      ["books.extract_metadata"] := by
  refine ⟨by decide, by decide, ?_⟩
  exact (dispatch_always_reinvokes_providers envBook
    "Smith, Widgets, 2001" "chicago" (by decide) (by decide) (by decide)
    (by decide)).1

/-! ### Router failure semantics (C4) -/

/-- Rebuild a pair from a first-component equation. -/
lemma pair_of_fst {α β : Type} (p : α × β) {a : α} (h : p.1 = a) :
    p = (a, p.2) := by
  rw [← h]

/-- With no pooled engine outlasting the deadline, `_route_journal` returns
normally. -/
lemma route_journal_no_hang (env : RouterEnv) (q : String)
    (hng : env.hangs q = []) :
    ∃ o, (route_journal env q).1 = Except.ok o := by
  unfold route_journal
  repeat' split
  all_goals first | exact ⟨_, rfl⟩ | simp_all

/-- With no hanging engines, the AI classification step returns normally. -/
lemma routeAiStep_ok (env : RouterEnv) (q : String)
    (hng : ∀ t, env.hangs t = []) :
    ∃ o tr, routeAiStep env q = (Except.ok o, tr) := by
  obtain ⟨jo, hjo⟩ := route_journal_no_hang env q (hng q)
  have hj : route_journal env q =
      (Except.ok jo, (route_journal env q).2) := pair_of_fst _ hjo
  unfold routeAiStep
  dsimp only
  rw [hj]
  repeat' split
  all_goals exact ⟨_, _, rfl⟩

/-- With no hanging engines, the detection dispatch returns normally. -/
lemma routeDispatch_ok (env : RouterEnv) (q : String)
    (hng : ∀ t, env.hangs t = []) :
    ∃ o tr, routeDispatch env q = (Except.ok o, tr) := by
  obtain ⟨jo, hjo⟩ := route_journal_no_hang env q (hng q)
  have hj : route_journal env q =
      (Except.ok jo, (route_journal env q).2) := pair_of_fst _ hjo
  obtain ⟨ao, atr, ha⟩ := routeAiStep_ok env q hng
  rcases hbk : route_book env q with ⟨bmd, btr⟩
  unfold routeDispatch
  dsimp only
  rw [hj, hbk, ha]
  repeat' split
  all_goals first
    | exact ⟨_, _, rfl⟩
    | (clear hj hjo; simp_all)

/-- With no hanging engines, `route_citation` returns normally, and a
metadata-less return carries the empty string. -/
lemma route_citation_shape (env : RouterEnv) (q s : String)
    (hng : ∀ t, env.hangs t = []) :
    (route_citation env q s).1 = Except.ok (none, "") ∨
    ∃ md, (route_citation env q s).1 = Except.ok (some md, env.fmt s md) := by
  obtain ⟨o, tr, hd⟩ := routeDispatch_ok env (pyStripS q) hng
  unfold route_citation
  dsimp only
  rw [hd]
  repeat' split
  all_goals first
    | exact Or.inl rfl
    | exact Or.inr ⟨_, rfl⟩
    | simp_all

/-- Counterexample to C4: with the PubMed future outlasting the 12-second
pool deadline, `as_completed` raises `TimeoutError` outside any `try`, and
`route_citation` propagates it to its caller; and on a non-raising total
failure the router returns `(None, "")` — an empty string, not a null
second component. -/
theorem router_raises_on_hanging_provider :
    (route_citation envJournalHang "quantum entanglement study"
      "chicago").1 = Except.error PyExc.futuresTimeout ∧
    (route_citation envJournalEmpty "quantum entanglement study"
      "chicago").1 = Except.ok (none, "") := by
  exact ⟨rfl, rfl⟩

/-- C4 (amended): provider exceptions inside wrapped calls degrade to "no
result", and as long as no pooled engine outlasts the fan-out deadline the
router never raises — it returns normally, with `(None, "")` (empty string)
whenever no provider produced usable metadata.  When a pooled engine does
outlast the deadline, the `as_completed` timeout propagates outward. -/
theorem router_no_raise_without_hang (env : RouterEnv) (q s : String)
    (hng : ∀ t, env.hangs t = []) :
    (∃ p, (route_citation env q s).1 = Except.ok p) ∧
    (∀ md fm, (route_citation env q s).1 = Except.ok (md, fm) →
      md = none → fm = "") := by
  rcases route_citation_shape env q s hng with h | ⟨md0, h⟩
  · refine ⟨⟨(none, ""), h⟩, ?_⟩
    intro md fm hok hmd
    rw [h] at hok
    simp only [Except.ok.injEq, Prod.mk.injEq] at hok
    exact hok.2.symm
  · refine ⟨⟨(some md0, env.fmt s md0), h⟩, ?_⟩
    intro md fm hok hmd
    rw [h] at hok
    simp only [Except.ok.injEq, Prod.mk.injEq] at hok
    rw [hmd] at hok
    exact absurd hok.1 (by simp)

/-- Witness for the amended C4 on the all-providers-empty environment. -/
theorem router_no_raise_without_hang_witness :
    (∀ t, baseRouterEnv.hangs t = []) ∧
    (∃ p, (route_citation baseRouterEnv "some query" "chicago").1 =
      Except.ok p) := by
  refine ⟨fun _ => rfl, ?_⟩
  exact (router_no_raise_without_hang baseRouterEnv "some query" "chicago"
    (fun _ => rfl)).1

/-! ### Hyperlink activator idempotence (C7)

The field construct the first pass splices in puts about `138 + L`
characters (for an escaped URL of length `L`) between the end of the
`HYPERLINK` keyword and the display run's `<w:t>`, but the second pass looks
for `HYPERLINK` only in the last 200 characters before the match: for URLs
longer than 53 characters the guard misses and the display run is wrapped
again. -/

set_option maxRecDepth 100000 in
/-- C7 evaluated at the failing input: the second activator pass re-wraps
the display text of the already-active HYPERLINK field of a 60-character
URL, while a short URL's field is left unchanged. -/
theorem linkActivator_not_idempotent_on_long_url :
    process_xml_content (process_xml_content activatorLongDoc) ≠
      process_xml_content activatorLongDoc ∧
    process_xml_content (process_xml_content activatorShortDoc) =
      process_xml_content activatorShortDoc := by
  exact ⟨by decide, by decide⟩

/-! ### The ibid round-trip (C6): matcher consumption lemmas -/

/-- Digits are fixed points of `Char.toLower`. -/
lemma toLower_digit {c : Char} (h : isDigitCh c = true) : c.toLower = c := by
  have hb := of_decide_eq_true h
  unfold Char.toLower
  rw [if_neg]
  rintro ⟨h1, _⟩
  omega

/-- A character whose lower-casing lies in a digit-free list is not a
digit. -/
lemma nd_of_toLower_mem (l : List Char)
    (hl : ∀ x ∈ l, isDigitCh x = false) :
    ∀ c, c.toLower ∈ l → isDigitCh c = false := by
  intro c hc
  cases hd : isDigitCh c with
  | false => rfl
  | true =>
      rw [toLower_digit hd] at hc
      simp [hl c hc] at hd

/-- Whitespace characters are not digits. -/
lemma nd_of_ws : ∀ c, pyWhitespace c = true → isDigitCh c = false := by
  intro c hc
  simp only [pyWhitespace, Bool.or_eq_true, beq_iff_eq] at hc
  rcases hc with ((((h | h) | h) | h) | h) | h <;> subst h <;> decide

/-- Sequencing preserves consumption discipline. -/
lemma consumes_seq {P : Char → Prop} {f g : List Char → List (List Char)}
    (hf : Consumes P f) (hg : Consumes P g) : Consumes P (seqCands f g) := by
  intro cs r hr
  simp only [seqCands, List.mem_flatMap] at hr
  obtain ⟨r1, hr1, hr2⟩ := hr
  obtain ⟨t1, hcs, ht1⟩ := hf cs r1 hr1
  obtain ⟨t2, hr1e, ht2⟩ := hg r1 r hr2
  refine ⟨t1 ++ t2, ?_, ?_⟩
  · rw [hcs, hr1e, List.append_assoc]
  · intro c hc
    rcases List.mem_append.1 hc with h | h
    exacts [ht1 c h, ht2 c h]

/-- Alternation preserves consumption discipline. -/
lemma consumes_append {P : Char → Prop} {f g : List Char → List (List Char)}
    (hf : Consumes P f) (hg : Consumes P g) :
    Consumes P (fun cs => f cs ++ g cs) := by
  intro cs r hr
  rcases List.mem_append.1 hr with h | h
  exacts [hf cs r h, hg cs r h]

/-- The skip candidate consumes nothing. -/
lemma consumes_id (P : Char → Prop) : Consumes P (fun cs => [cs]) := by
  intro cs r hr
  simp only [List.mem_singleton] at hr
  exact ⟨[], by simp [hr], by simp⟩

/-- What `matchLit` consumes: character by character, a lowering into the
literal. -/
lemma matchLit_consume (l : List Char) : ∀ cs r, matchLit l cs = some r →
    ∃ t, cs = t ++ r ∧ ∀ c ∈ t, c.toLower ∈ l := by
  induction l with
  | nil =>
      intro cs r h
      simp only [matchLit, Option.some.injEq] at h
      exact ⟨[], by simp [h], by simp⟩
  | cons a as ih =>
      intro cs r h
      cases cs with
      | nil => simp [matchLit] at h
      | cons c cs' =>
          simp only [matchLit] at h
          by_cases hca : c.toLower = a
          · rw [if_pos hca] at h
            obtain ⟨t, hcs, ht⟩ := ih cs' r h
            refine ⟨c :: t, by simp [hcs], ?_⟩
            intro x hx
            rcases List.mem_cons.1 hx with rfl | hx
            · simp [hca]
            · simp [ht x hx]
          · rw [if_neg hca] at h
            exact absurd h (by simp)

/-- Consumption discipline for literals over a `P`-closed alphabet. -/
lemma consumes_lit {P : Char → Prop} (l : List Char)
    (hP : ∀ c, c.toLower ∈ l → P c) : Consumes P (litCands l) := by
  intro cs r hr
  simp only [litCands, Option.mem_toList, Option.mem_def] at hr
  obtain ⟨t, hcs, ht⟩ := matchLit_consume l cs r hr
  exact ⟨t, hcs, fun c hc => hP c (ht c hc)⟩

/-- Consumption discipline for the greedy star. -/
lemma consumes_star {P : Char → Prop} (p : Char → Bool)
    (hP : ∀ c, p c = true → P c) : Consumes P (starCands p) := by
  intro cs
  induction cs with
  | nil =>
      intro r hr
      simp only [starCands, List.mem_singleton] at hr
      exact ⟨[], by simp [hr], by simp⟩
  | cons c cs' ih =>
      intro r hr
      simp only [starCands] at hr
      by_cases hc : p c = true
      · rw [if_pos hc] at hr
        rcases List.mem_append.1 hr with h | h
        · obtain ⟨t, ht1, ht2⟩ := ih r h
          refine ⟨c :: t, by simp [ht1], ?_⟩
          intro x hx
          rcases List.mem_cons.1 hx with rfl | hx
          exacts [hP x hc, ht2 x hx]
        · simp only [List.mem_singleton] at h
          exact ⟨[], by simp [h], by simp⟩
      · rw [if_neg hc] at hr
        simp only [List.mem_singleton] at hr
        exact ⟨[], by simp [hr], by simp⟩

/-- Consumption discipline for the greedy plus. -/
lemma consumes_plus {P : Char → Prop} (p : Char → Bool)
    (hP : ∀ c, p c = true → P c) : Consumes P (plusCands p) := by
  intro cs r hr
  cases cs with
  | nil => simp [plusCands] at hr
  | cons c cs' =>
      simp only [plusCands] at hr
      by_cases hc : p c = true
      · rw [if_pos hc] at hr
        obtain ⟨t, ht1, ht2⟩ := consumes_star p hP cs' r hr
        refine ⟨c :: t, by simp [ht1], ?_⟩
        intro x hx
        rcases List.mem_cons.1 hx with rfl | hx
        exacts [hP x hc, ht2 x hx]
      · rw [if_neg hc] at hr
        simp at hr

/-- Consumption discipline for an optional single character. -/
lemma consumes_charOpt {P : Char → Prop} (p : Char → Bool)
    (hP : ∀ c, p c = true → P c) : Consumes P (charOptCands p) := by
  intro cs r hr
  cases cs with
  | nil =>
      simp only [charOptCands, List.mem_singleton] at hr
      exact ⟨[], by simp [hr], by simp⟩
  | cons c cs' =>
      simp only [charOptCands] at hr
      rcases List.mem_append.1 hr with h | h
      · by_cases hc : p c = true
        · rw [if_pos hc] at h
          simp only [List.mem_singleton] at h
          exact ⟨[c], by simp [h], by simp [hP c hc]⟩
        · rw [if_neg hc] at h
          simp at h
      · simp only [List.mem_singleton] at h
        exact ⟨[], by simp [h], by simp⟩

/-- The ibid prefix alternation consumes no digits. -/
lemma consumes_pref : Consumes ND ibidPrefCands := by
  have hdot : Consumes ND dotOptCands := by
    unfold dotOptCands
    exact consumes_charOpt _ (fun c h =>
      nd_of_toLower_mem ['.'] (by decide) c (by simpa using h))
  exact consumes_append
    (consumes_append
      (consumes_seq (consumes_lit _ (nd_of_toLower_mem "ibid".data (by decide))) hdot)
      (consumes_seq (consumes_lit _ (nd_of_toLower_mem "ibidem".data (by decide))) hdot))
    (consumes_seq (consumes_lit _ (nd_of_toLower_mem "id".data (by decide))) hdot)

/-- The dot option consumes no digits. -/
lemma consumes_dotOpt : Consumes ND dotOptCands := by
  unfold dotOptCands
  exact consumes_charOpt _ (fun c h =>
    nd_of_toLower_mem ['.'] (by decide) c (by simpa using h))

/-- The whitespace star consumes no digits. -/
lemma consumes_wsStar : Consumes ND (starCands pyWhitespace) :=
  consumes_star _ nd_of_ws

/-- The separator option consumes no digits. -/
lemma consumes_sep : Consumes ND sepOptCands := by
  have hcomma : Consumes ND
      (charOptCands (fun c => c == ',' || c == '.')) := by
    refine consumes_charOpt _ (fun c h => ?_)
    simp only [Bool.or_eq_true, beq_iff_eq] at h
    rcases h with rfl | rfl
    · show isDigitCh ',' = false
      decide
    · show isDigitCh '.' = false
      decide
  exact consumes_append
    (consumes_append
      (consumes_seq (consumes_lit _ (nd_of_toLower_mem "at".data (by decide)))
        (consumes_plus _ nd_of_ws))
      (consumes_seq hcomma consumes_wsStar))
    (consumes_id ND)

/-- The page-word option consumes no digits. -/
lemma consumes_pp : Consumes ND ppOptCands := by
  have hp : Consumes ND (litCands "p".data) :=
    consumes_lit _ (nd_of_toLower_mem "p".data (by decide))
  exact consumes_append
    (consumes_seq
      (consumes_seq
        (consumes_seq hp (consumes_append hp (consumes_id ND)))
        consumes_dotOpt)
      consumes_wsStar)
    (consumes_id ND)

/-! ### The ibid round-trip (C6): page-group decomposition -/

/-- Precise decomposition of a plus candidate: a nonempty satisfying run. -/
lemma plusCands_decomp (p : Char → Bool) (cs r : List Char)
    (hr : r ∈ plusCands p cs) :
    ∃ t, cs = t ++ r ∧ t ≠ [] ∧ ∀ c ∈ t, p c = true := by
  cases cs with
  | nil => simp [plusCands] at hr
  | cons c cs' =>
      simp only [plusCands] at hr
      by_cases hc : p c = true
      · rw [if_pos hc] at hr
        obtain ⟨t, ht1, ht2⟩ :=
          consumes_star (P := fun x => p x = true) p (fun _ h => h) cs' r hr
        refine ⟨c :: t, by simp [ht1], by simp, ?_⟩
        intro x hx
        rcases List.mem_cons.1 hx with rfl | hx
        exacts [hc, ht2 x hx]
      · rw [if_neg hc] at hr
        simp at hr

/-- Precise decomposition of an optional-character candidate. -/
lemma charOptCands_decomp (p : Char → Bool) (cs r : List Char)
    (hr : r ∈ charOptCands p cs) :
    r = cs ∨ ∃ c, cs = c :: r ∧ p c = true := by
  cases cs with
  | nil =>
      simp only [charOptCands, List.mem_singleton] at hr
      exact Or.inl hr
  | cons c cs' =>
      simp only [charOptCands] at hr
      rcases List.mem_append.1 hr with h | h
      · by_cases hc : p c = true
        · rw [if_pos hc] at h
          simp only [List.mem_singleton] at h
          exact Or.inr ⟨c, by rw [h], hc⟩
        · rw [if_neg hc] at h
          simp at h
      · simp only [List.mem_singleton] at h
        exact Or.inl h

/-- Taking back the consumed part of an append. -/
lemma consumedOf_append (x r : List Char) : consumedOf (x ++ r) r = x := by
  simp only [consumedOf, List.length_append, Nat.add_sub_cancel]
  induction x with
  | nil => simp
  | cons c t ih => simp

/-- A skipped page group leaves the input untouched. -/
lemma numOptCands_none (cs r : List Char)
    (h : (r, (none : Option (List Char))) ∈ numOptCands cs) : r = cs := by
  simp only [numOptCands, List.mem_append, List.mem_map,
    List.mem_singleton] at h
  rcases h with ⟨x, _, hx⟩ | h
  · exact absurd (congrArg Prod.snd hx) (by simp)
  · exact congrArg Prod.fst h

/-- A captured page group is a nonempty digit run, an optional single dash,
and a further digit run. -/
lemma numOptCands_some (cs r cap : List Char)
    (h : (r, some cap) ∈ numOptCands cs) :
    ∃ d1 m d2, cs = (d1 ++ m ++ d2) ++ r ∧ cap = d1 ++ m ++ d2 ∧
      d1 ≠ [] ∧ (∀ c ∈ d1, isDigitCh c = true) ∧
      (m = [] ∨ m = ['-'] ∨ m = ['–']) ∧
      (∀ c ∈ d2, isDigitCh c = true) := by
  simp only [numOptCands, List.mem_append, List.mem_map,
    List.mem_singleton] at h
  rcases h with ⟨r0, hr0, he⟩ | he
  · have hrr : r0 = r := congrArg Prod.fst he
    subst hrr
    have hcap : consumedOf cs r0 = cap := by
      have := congrArg Prod.snd he
      simpa using this
    simp only [numCandsRem, seqCands, List.mem_flatMap] at hr0
    obtain ⟨r2, hr2, hr0'⟩ := hr0
    obtain ⟨r1, hr1, hr1'⟩ := hr2
    obtain ⟨d1, hcs1, hd1ne, hd1⟩ := plusCands_decomp isDigitCh cs r1 hr1
    obtain ⟨d2, hr2e, hd2⟩ :=
      consumes_star (P := fun x => isDigitCh x = true) isDigitCh
        (fun _ h => h) r2 r0 hr0'
    rcases charOptCands_decomp isIbidDash r1 r2 hr1' with heq | ⟨m0, hm0, hm0d⟩
    · refine ⟨d1, [], d2, ?_, ?_, hd1ne, hd1, Or.inl rfl, hd2⟩
      · rw [hcs1, ← heq, hr2e]
        simp
      · rw [← hcap, hcs1, ← heq, hr2e]
        rw [show d1 ++ (d2 ++ r0) = (d1 ++ [] ++ d2) ++ r0 by simp]
        exact consumedOf_append _ _
    · have hdash : m0 = '-' ∨ m0 = '–' := by
        simp only [isIbidDash, Bool.or_eq_true, beq_iff_eq] at hm0d
        exact hm0d
      refine ⟨d1, [m0], d2, ?_, ?_, hd1ne, hd1, ?_, hd2⟩
      · rw [hcs1, hm0, hr2e]
        simp
      · rw [← hcap, hcs1, hm0, hr2e]
        rw [show d1 ++ (m0 :: (d2 ++ r0)) = (d1 ++ [m0] ++ d2) ++ r0 by simp]
        exact consumedOf_append _ _
      · rcases hdash with rfl | rfl
        · exact Or.inr (Or.inl rfl)
        · exact Or.inr (Or.inr rfl)
  · exact absurd (congrArg Prod.snd he) (by simp)

/-! ### The ibid round-trip (C6): strip lemmas -/

/-- `pyStrip` splits the input into whitespace margins around the core. -/
lemma pyStrip_decomp (l : List Char) :
    ∃ a b, l = a ++ pyStrip l ++ b ∧ (∀ c ∈ a, pyWhitespace c = true) ∧
      (∀ c ∈ b, pyWhitespace c = true) := by
  refine ⟨l.takeWhile pyWhitespace,
    ((l.dropWhile pyWhitespace).reverse.takeWhile pyWhitespace).reverse,
    ?_, ?_, ?_⟩
  · unfold pyStrip
    conv_lhs =>
      rw [← List.takeWhile_append_dropWhile (p := pyWhitespace) (l := l)]
    rw [List.append_assoc]
    congr 1
    conv_lhs =>
      rw [← List.reverse_reverse (l.dropWhile pyWhitespace),
        ← List.takeWhile_append_dropWhile (p := pyWhitespace)
          (l := (l.dropWhile pyWhitespace).reverse)]
    rw [List.reverse_append]
  · exact fun c hc => List.mem_takeWhile_imp hc
  · intro c hc
    rw [List.mem_reverse] at hc
    exact List.mem_takeWhile_imp hc

/-- Members of the stripped list come from the input. -/
lemma pyStrip_sub (l : List Char) : ∀ c ∈ pyStrip l, c ∈ l := by
  obtain ⟨a, b, hl, _, _⟩ := pyStrip_decomp l
  intro c hc
  rw [hl]
  simp [hc]

/-- Stripping is the identity on whitespace-free text. -/
lemma pyStrip_eq_self (l : List Char)
    (h : ∀ c ∈ l, pyWhitespace c = false) : pyStrip l = l := by
  have h1 : l.dropWhile pyWhitespace = l := by
    cases l with
    | nil => rfl
    | cons c t =>
        rw [List.dropWhile_cons]
        simp [h c (by simp)]
  unfold pyStrip
  rw [h1]
  have h2 : l.reverse.dropWhile pyWhitespace = l.reverse := by
    cases hrev : l.reverse with
    | nil => rfl
    | cons c t =>
        rw [List.dropWhile_cons]
        have hcl : c ∈ l := by
          rw [← List.mem_reverse, hrev]
          simp
        simp [h c hcl]
  rw [h2, List.reverse_reverse]

/-- The head of a candidate list is a member. -/
lemma mem_of_head?_eq {α : Type} {l : List α} {a : α}
    (h : l.head? = some a) : a ∈ l := by
  cases l with
  | nil => simp at h
  | cons x xs =>
      simp only [List.head?, Option.some.injEq] at h
      rw [← h]
      exact List.mem_cons_self x xs

/-- Digits are not whitespace. -/
lemma ws_false_of_digit {c : Char} (h : isDigitCh c = true) :
    pyWhitespace c = false := by
  cases hw : pyWhitespace c with
  | false => rfl
  | true => rw [nd_of_ws c hw] at h; exact absurd h (by simp)

/-- Every complete parse of `IBID_PATTERN` either captures nothing — and
then the whole input is digit-free — or captures a digit run with an
optional dash and further digits, flanked by digit-free margins. -/
lemma ibidFullCands_spec (cs : List Char) (capOpt : Option (List Char))
    (h : capOpt ∈ ibidFullCands cs) :
    (capOpt = none → ∀ c ∈ cs, isDigitCh c = false) ∧
    (∀ cap, capOpt = some cap →
      (∃ d1 m d2, cap = d1 ++ m ++ d2 ∧ d1 ≠ [] ∧
        (∀ c ∈ d1, isDigitCh c = true) ∧
        (m = [] ∨ m = ['-'] ∨ m = ['–']) ∧
        (∀ c ∈ d2, isDigitCh c = true)) ∧
      ∃ pre post, cs = pre ++ cap ++ post ∧
        (∀ c ∈ pre, isDigitCh c = false) ∧
        (∀ c ∈ post, isDigitCh c = false)) := by
  simp only [ibidFullCands, List.mem_flatMap, List.mem_filterMap] at h
  obtain ⟨r1, hr1, rc, hrc, r3, hr3, hite⟩ := h
  have hr3nil : r3 = [] := by
    by_cases h3 : r3 = []
    · exact h3
    · rw [if_neg h3] at hite
      exact absurd hite (by simp)
  subst hr3nil
  rw [if_pos rfl] at hite
  have hco : rc.2 = capOpt := by
    injection hite
  obtain ⟨t1, hcs1, ht1⟩ := consumes_pref cs r1 hr1
  simp only [midCands, List.mem_append, List.mem_flatMap,
    List.mem_singleton] at hrc
  rcases hrc with ⟨ra, hra, rb, hrb, rcc, hrcc, hnum⟩ | hrc_eq
  · obtain ⟨tw, hr1e, htw⟩ := consumes_wsStar r1 ra hra
    obtain ⟨ts, hrae, hts⟩ := consumes_sep ra rb hrb
    obtain ⟨tp, hrbe, htp⟩ := consumes_pp rb rcc hrcc
    have hnum' : (rc.1, rc.2) ∈ numOptCands rcc := by
      rw [Prod.mk.eta]
      exact hnum
    obtain ⟨td, hrc1e, htd⟩ := consumes_dotOpt rc.1 [] hr3
    rw [List.append_nil] at hrc1e
    rcases hrc2 : rc.2 with _ | cap0
    · rw [hrc2] at hnum'
      have hrc1 : rc.1 = rcc := numOptCands_none rcc rc.1 hnum'
      constructor
      · intro _
        rw [hcs1, hr1e, hrae, hrbe, ← hrc1, hrc1e]
        intro c hc
        simp only [List.mem_append] at hc
        rcases hc with hc | hc | hc | hc | hc
        exacts [ht1 c hc, htw c hc, hts c hc, htp c hc, htd c hc]
      · intro cap hcap
        rw [← hco, hrc2] at hcap
        exact absurd hcap (by simp)
    · rw [hrc2] at hnum'
      obtain ⟨d1, m, d2, hrcce, hcap0, hd1ne, hd1, hm2, hd2⟩ :=
        numOptCands_some rcc rc.1 cap0 hnum'
      constructor
      · intro hcn
        rw [← hco, hrc2] at hcn
        exact absurd hcn (by simp)
      · intro cap hcap
        have hc0 : cap0 = cap := by
          rw [← hco, hrc2] at hcap
          injection hcap
        subst hc0
        refine ⟨⟨d1, m, d2, hcap0, hd1ne, hd1, hm2, hd2⟩,
          t1 ++ tw ++ ts ++ tp, td, ?_, ?_, htd⟩
        · rw [hcs1, hr1e, hrae, hrbe, hrcce, hrc1e, hcap0]
          simp [List.append_assoc]
        · intro c hc
          simp only [List.mem_append] at hc
          rcases hc with ((hc | hc) | hc) | hc
          exacts [ht1 c hc, htw c hc, hts c hc, htp c hc]
  · have h1 : rc.1 = r1 := congrArg Prod.fst hrc_eq
    have h2 : rc.2 = none := congrArg Prod.snd hrc_eq
    obtain ⟨td, hrc1e, htd⟩ := consumes_dotOpt rc.1 [] hr3
    rw [List.append_nil] at hrc1e
    constructor
    · intro _
      rw [hcs1, ← h1, hrc1e]
      intro c hc
      rcases List.mem_append.1 hc with hc | hc
      exacts [ht1 c hc, htd c hc]
    · intro cap hcap
      rw [← hco, h2] at hcap
      exact absurd hcap (by simp)

/-- C6 (amended): for every string accepted by the explicit-ibid pattern,
the extracted page is null exactly when the text contains no digit, and an
extracted page is the contiguous digit block after the recognized prefix —
one digit run, an optional single dash, and a possibly empty second digit
run (so a dangling dash is included in the token) — flanked by digit-free
text. -/
theorem ibid_page_extraction (s : String) (hs : is_ibid s = true) :
    (extract_ibid_page s = none ↔ ∀ c ∈ s.data, isDigitCh c = false) ∧
    (∀ p, extract_ibid_page s = some p →
      (∃ d1 m d2, p.data = d1 ++ m ++ d2 ∧ d1 ≠ [] ∧
        (∀ c ∈ d1, isDigitCh c = true) ∧
        (m = [] ∨ m = ['-'] ∨ m = ['–']) ∧
        (∀ c ∈ d2, isDigitCh c = true)) ∧
      ∃ pre post, pyStrip s.data = pre ++ p.data ++ post ∧
        (∀ c ∈ pre, isDigitCh c = false) ∧
        (∀ c ∈ post, isDigitCh c = false)) := by
  have hsne : s ≠ "" := by
    intro he
    rw [he] at hs
    simp [is_ibid] at hs
  have hsome : (ibidMatchRe (pyStrip s.data)).isSome = true := by
    unfold is_ibid at hs
    rw [if_neg hsne] at hs
    exact hs
  obtain ⟨capOpt, hm⟩ := Option.isSome_iff_exists.1 hsome
  have hmem : capOpt ∈ ibidFullCands (pyStrip s.data) := by
    unfold ibidMatchRe at hm
    exact mem_of_head?_eq hm
  have spec := ibidFullCands_spec (pyStrip s.data) capOpt hmem
  cases capOpt with
  | none =>
      have hex : extract_ibid_page s = none := by
        unfold extract_ibid_page
        rw [if_neg hsne, hm]
      have hnd := spec.1 rfl
      obtain ⟨a, b, hl, ha, hb⟩ := pyStrip_decomp s.data
      have hall : ∀ c ∈ s.data, isDigitCh c = false := by
        intro c hc
        rw [hl] at hc
        simp only [List.mem_append] at hc
        rcases hc with (hc | hc) | hc
        exacts [nd_of_ws c (ha c hc), hnd c hc, nd_of_ws c (hb c hc)]
      constructor
      · rw [hex]
        exact ⟨fun _ => hall, fun _ => rfl⟩
      · intro p hp
        rw [hex] at hp
        exact absurd hp (by simp)
  | some cap =>
      have hex : extract_ibid_page s =
          (if cap = [] then none else some (String.mk (pyStrip cap))) := by
        unfold extract_ibid_page
        rw [if_neg hsne, hm]
      obtain ⟨⟨d1, m, d2, hcap, hd1ne, hd1, hm2, hd2⟩,
        pre, post, hsplit, hpre, hpost⟩ := spec.2 cap rfl
      have hcapws : ∀ c ∈ cap, pyWhitespace c = false := by
        intro c hc
        rw [hcap] at hc
        simp only [List.mem_append] at hc
        rcases hc with (hc | hc) | hc
        · exact ws_false_of_digit (hd1 c hc)
        · rcases hm2 with rfl | rfl | rfl
          · simp at hc
          · simp only [List.mem_singleton] at hc
            subst hc
            decide
          · simp only [List.mem_singleton] at hc
            subst hc
            decide
        · exact ws_false_of_digit (hd2 c hc)
      have hcapne : cap ≠ [] := by
        rw [hcap]
        intro hnil
        rcases List.append_eq_nil.1 hnil with ⟨h12, _⟩
        exact hd1ne (List.append_eq_nil.1 h12).1
      have hex2 : extract_ibid_page s = some (String.mk cap) := by
        rw [hex]
        simp only [if_neg hcapne]
        rw [pyStrip_eq_self cap hcapws]
      constructor
      · constructor
        · intro h0
          rw [hex2] at h0
          exact absurd h0 (by simp)
        · intro hall
          obtain ⟨c0, hc0⟩ := List.exists_mem_of_ne_nil d1 hd1ne
          have hc0cap : c0 ∈ cap := by
            rw [hcap]
            simp [hc0]
          have hc0strip : c0 ∈ pyStrip s.data := by
            rw [hsplit]
            simp [hc0cap]
          have hc0s : c0 ∈ s.data := pyStrip_sub _ _ hc0strip
          exact absurd (hd1 c0 hc0) (by simp [hall c0 hc0s])
      · intro p hp
        rw [hex2] at hp
        have hpd : p.data = cap := by
          have hps : String.mk cap = p := by
            injection hp
          rw [← hps]
        rw [hpd]
        exact ⟨⟨d1, m, d2, hcap, hd1ne, hd1, hm2, hd2⟩,
          pre, post, hsplit, hpre, hpost⟩

/-- Counterexample to C6: `"ibid., 45-"` is accepted by the pattern and its
extracted page is `"45-"` — a token with a dangling dash that is neither a
plain number nor a numeric range, and not the numeric substring `"45"`
present after the prefix. -/
theorem ibid_trailing_dash_counterexample :
    is_ibid "ibid., 45-" = true ∧
    extract_ibid_page "ibid., 45-" = some "45-" ∧
    isNumericOrRange "45-" = false ∧
    isNumericOrRange "45" = true ∧
    extract_ibid_page "ibid., 45-" ≠ some "45" := by
  refine ⟨by decide, by decide, by decide, by decide, by decide⟩

/-- Witness for the amended C6 at the spec's four examples. -/
theorem ibid_page_extraction_witness :
    is_ibid "ibid., pp. 12-15" = true ∧
    extract_ibid_page "ibid." = none ∧
    extract_ibid_page "ibid., 45" = some "45" ∧
    extract_ibid_page "Id. at 789" = some "789" ∧
    extract_ibid_page "ibid., pp. 12-15" = some "12-15" ∧
    (extract_ibid_page "ibid., pp. 12-15" = none ↔
      ∀ c ∈ "ibid., pp. 12-15".data, isDigitCh c = false) := by
  refine ⟨by decide, by decide, by decide, by decide, by decide, ?_⟩
  exact (ibid_page_extraction "ibid., pp. 12-15" (by decide)).1

end CiteFlex
